import Mathlib

/-!
# Verification of the ticket-to-ride game core

Shallow embedding of the Rust sources under `src/backend/ticket-to-ride/src/`
(`card.rs`, `city.rs`, `map.rs`, `player.rs`, `manager.rs`) and proofs about
the claims of the specification.

Conventions used throughout the embedding:

* A Rust `Vec<T>` is a Lean `List T` in the same order (index 0 first);
  `Vec::pop`, which removes the *last* element, is `popLast` below.
* A Rust `VecDeque<T>` is a `List T` whose head is the *front* of the deque;
  `pop_back` is `popLast`, `push_front` is `List.cons`.
* Shuffles (`rand::thread_rng`) are modelled by an explicit oracle
  `σ : List α → List α`; theorems assume `∀ l, (σ l).Perm l` where it matters.
* `CardDealer::maybe_reshuffle_open_train_card_deck` recurses and, under an
  adversarial shuffle oracle, need not terminate; it is therefore embedded
  with an explicit fuel parameter, `none` meaning the recursion was cut off.
  (In the real program the recursion terminates with probability 1.)
* Stateful methods on `&mut self` are embedded in a state-passing style that
  returns the (possibly unchanged) state *together with* the `Result`, so
  that "no mutation happened before this error return" is a provable
  statement rather than an artifact of the encoding.
* Rust panics (`unwrap` on `None`/`Err`, out-of-bounds indexing,
  `unreachable!`) are modelled by the `Res.panic` outcome.
-/

/-- The train-card colors, in the declaration order of `card.rs`
(`Black, Blue, Green, Orange, Pink, Red, White, Wild, Yellow`). -/
inductive TrainColor where
  | Black
  | Blue
  | Green
  | Orange
  | Pink
  | Red
  | White
  | Wild
  | Yellow
deriving DecidableEq, Repr, Fintype

/-- `TrainColor::is_wild`. -/
def TrainColor.is_wild (c : TrainColor) : Bool :=
  c = TrainColor.Wild

/-- `TrainColor::is_not_wild`. -/
def TrainColor.is_not_wild (c : TrainColor) : Bool :=
  !c.is_wild

/-- `TrainColor::iter()` (strum `EnumIter`): all variants in declaration order. -/
def TrainColor.iter : List TrainColor :=
  [.Black, .Blue, .Green, .Orange, .Pink, .Red, .White, .Wild, .Yellow]

/-- The 36 cities of `city.rs`, in declaration (= `u8` value) order. -/
inductive City where
  | Atlanta
  | Boston
  | Calgary
  | Charleston
  | Chicago
  | Dallas
  | Denver
  | Duluth
  | ElPaso
  | Helena
  | Houston
  | KansasCity
  | LasVegas
  | LittleRock
  | LosAngeles
  | Miami
  | Montreal
  | Nashville
  | NewOrleans
  | NewYork
  | OklahomaCity
  | Omaha
  | Phoenix
  | Pittsburgh
  | Portland
  | Raleigh
  | SaintLouis
  | SaltLakeCity
  | SanFrancisco
  | SantaFe
  | SaultStMarie
  | Seattle
  | Toronto
  | Vancouver
  | Washington
  | Winnipeg
deriving DecidableEq, Repr, Fintype

/-- `CityToCity` of `city.rs`. -/
abbrev CityToCity := City × City

/-- `DestinationCard` of `card.rs` (`destination: CityToCity, points: u8`). -/
structure DestinationCard where
  destination : CityToCity
  points : Nat
deriving DecidableEq, Repr

/-- `Vec::pop`: removes and returns the *last* element of a Rust vector. -/
def popLast {α : Type} : List α → Option (α × List α)
  | [] => none
  | [a] => some (a, [])
  | a :: b :: rest =>
    match popLast (b :: rest) with
    | some (c, front) => some (c, a :: front)
    | none => none

/-- Outcome of an embedded Rust computation: a normal value, a panic
(`unwrap`, out-of-bounds indexing, `unreachable!`), or exhaustion of the
fuel that bounds the `maybe_reshuffle_open_train_card_deck` recursion. -/
inductive Res (α : Type) where
  | ok (a : α)
  | panic
  | fuelOut
deriving DecidableEq, Repr

theorem popLast_eq_none {α : Type} (l : List α) : popLast l = none ↔ l = [] := by
  constructor
  · intro h
    cases l with
    | nil => rfl
    | cons a rest =>
      cases rest with
      | nil => simp [popLast] at h
      | cons b r2 =>
        rw [popLast] at h
        rcases h2 : popLast (b :: r2) with _ | ⟨c, front⟩
        · cases (popLast_eq_none (b :: r2)).mp h2
        · rw [h2] at h
          simp at h
  · intro h
    subst h
    rfl

theorem popLast_perm {α : Type} (l : List α) (a : α) (rest : List α)
    (h : popLast l = some (a, rest)) : l.Perm (a :: rest) := by
  induction l generalizing a rest with
  | nil => simp [popLast] at h
  | cons x xs ih =>
    cases xs with
    | nil =>
      simp [popLast] at h
      obtain ⟨h1, h2⟩ := h
      subst h1; subst h2
      exact List.Perm.refl _
    | cons y ys =>
      rw [popLast] at h
      rcases h2 : popLast (y :: ys) with _ | ⟨c, front⟩
      · rw [h2] at h; simp at h
      · rw [h2] at h
        simp at h
        obtain ⟨h1, h3⟩ := h
        subst h1; subst h3
        exact ((ih c front h2).cons x).trans (List.Perm.swap c x front)

theorem popLast_length {α : Type} (l : List α) (a : α) (rest : List α)
    (h : popLast l = some (a, rest)) : l.length = rest.length + 1 :=
  (popLast_perm l a rest h).length_eq

/-! ## The card dealer (`card.rs`) -/

/-- `CardDealer` of `card.rs`.  The four decks follow the representation
conventions of the file header (`Vec` and `VecDeque` as `List`). -/
structure CardDealer where
  open_train_card_deck : List (Option TrainColor)
  close_train_card_deck : List TrainColor
  discarded_train_card_deck : List TrainColor
  destination_card_deck : List DestinationCard
deriving DecidableEq, Repr

/-- Errors returned by `CardDealer` methods.  Each constructor corresponds to
one `Err(...)` site of `card.rs`; the human-readable message formatting is
not modelled (the constructor carries the formatted-in data instead). -/
inductive DealerErr where
  /-- "There is no cards left in the close train card deck." -/
  | closeDeckEmpty
  /-- "Card looked up at index {i} is out of bounds (size {n})." -/
  | openIndexOutOfBounds (i n : Nat)
  /-- "No cards found at index {i}." -/
  | noCardAtIndex (i : Nat)
  /-- "Cannot draw a wild card after having already drawn a train card this turn." -/
  | wildOnSecondDraw
  /-- "Cannot draw from the destination card deck, as it is empty." -/
  | destinationDeckEmpty
deriving DecidableEq, Repr

/-- The wild-card count of the open deck, as tallied by the loop at the top of
`CardDealer::should_reshuffle_open_train_card_deck` (empty slots ignored). -/
def CardDealer.num_wild_cards_in_open_train_card_deck (d : CardDealer) : Nat :=
  (d.open_train_card_deck.filterMap id).countP TrainColor.is_wild

/-- The total number of non-wild cards across the open, close and discarded
decks, as tallied by `CardDealer::should_reshuffle_open_train_card_deck`
(the source loop exits early once the count reaches `WILD_CARD_LIMIT`; only
the comparison against that limit is ever used, so the full count is an
equivalent embedding). -/
def CardDealer.num_non_wild_cards_in_all_decks (d : CardDealer) : Nat :=
  (d.open_train_card_deck.filterMap id).countP TrainColor.is_not_wild
    + d.close_train_card_deck.countP TrainColor.is_not_wild
    + d.discarded_train_card_deck.countP TrainColor.is_not_wild

/-- `CardDealer::should_reshuffle_open_train_card_deck` (`WILD_CARD_LIMIT = 3`). -/
def CardDealer.should_reshuffle_open_train_card_deck (d : CardDealer) : Bool :=
  if d.num_wild_cards_in_open_train_card_deck < 3 then false
  else decide (3 ≤ d.num_non_wild_cards_in_all_decks)

/-- `CardDealer::maybe_reshuffle_and_swap_discarded_deck`: when the close deck
is empty and the discarded deck is not, shuffle the discarded deck and swap
the two.  `σ` is the shuffle oracle. -/
def CardDealer.maybe_reshuffle_and_swap_discarded_deck
    (σ : List TrainColor → List TrainColor) (d : CardDealer) : CardDealer :=
  if d.close_train_card_deck ≠ [] ∨ d.discarded_train_card_deck = [] then d
  else
    { d with
      close_train_card_deck := σ d.discarded_train_card_deck,
      discarded_train_card_deck := [] }

/-- One refill loop of `CardDealer::maybe_reshuffle_open_train_card_deck`:
`for _ in 0..n { match close.pop() { Some(c) => open.push(Some(c)), None => break } }`. -/
def CardDealer.refill_open_deck : Nat → CardDealer → CardDealer
  | 0, d => d
  | n + 1, d =>
    match popLast d.close_train_card_deck with
    | none => d
    | some (c, rest) =>
      CardDealer.refill_open_deck n
        { d with
          open_train_card_deck := d.open_train_card_deck ++ [some c],
          close_train_card_deck := rest }

/-- The body of one `CardDealer::maybe_reshuffle_open_train_card_deck`
iteration (everything between the `should_reshuffle` test and the recursive
call): move the open deck to the discarded deck, refill up to 5 slots from
the close deck, maybe swap the discarded deck in, and refill again. -/
def CardDealer.reshuffle_open_deck_once
    (σ : List TrainColor → List TrainColor) (d : CardDealer) : CardDealer :=
  let d1 : CardDealer :=
    { d with
      discarded_train_card_deck :=
        d.discarded_train_card_deck ++ d.open_train_card_deck.filterMap id,
      open_train_card_deck := [] }
  let d2 := d1.refill_open_deck 5
  let d3 := d2.maybe_reshuffle_and_swap_discarded_deck σ
  d3.refill_open_deck (5 - d3.open_train_card_deck.length)

/-- `CardDealer::maybe_reshuffle_open_train_card_deck`.  The source recurses
until the open deck stabilizes; the recursion is bounded here by `fuel`
(`none` = fuel exhausted; under an adversarial shuffle oracle the source
recursion need not terminate).  Returns the new state and whether a
reshuffle took place. -/
def CardDealer.maybe_reshuffle_open_train_card_deck
    (σ : List TrainColor → List TrainColor) : Nat → CardDealer → Option (CardDealer × Bool)
  | 0, _ => none
  | fuel + 1, d =>
    if d.should_reshuffle_open_train_card_deck then
      (CardDealer.maybe_reshuffle_open_train_card_deck σ fuel
          (d.reshuffle_open_deck_once σ)).map (fun p => (p.1, true))
    else some (d, false)

/-- `CardDealer::draw_from_close_train_card_deck`. -/
def CardDealer.draw_from_close_train_card_deck
    (σ : List TrainColor → List TrainColor) (d : CardDealer) :
    Except DealerErr TrainColor × CardDealer :=
  match popLast d.close_train_card_deck with
  | some (card_drawn, rest) =>
    (Except.ok card_drawn,
      CardDealer.maybe_reshuffle_and_swap_discarded_deck σ
        { d with close_train_card_deck := rest })
  | none => (Except.error DealerErr.closeDeckEmpty, d)

/-- `CardDealer::peek_at_open_train_card`. -/
def CardDealer.peek_at_open_train_card (d : CardDealer) (card_index : Nat) :
    Except DealerErr TrainColor :=
  match d.open_train_card_deck[card_index]? with
  | none => Except.error (DealerErr.openIndexOutOfBounds card_index d.open_train_card_deck.length)
  | some none => Except.error (DealerErr.noCardAtIndex card_index)
  | some (some card) => Except.ok card

/-- `CardDealer::draw_from_open_train_card_deck`.  On success the drawn slot
is replaced by `draw_from_close_train_card_deck().ok()` and the wild-cap
normalization runs; the second component of the `ok` payload records whether
it reshuffled. -/
def CardDealer.draw_from_open_train_card_deck
    (σ : List TrainColor → List TrainColor) (fuel : Nat)
    (card_index : Nat) (is_second_draw : Bool) (d : CardDealer) :
    Option (Except DealerErr (TrainColor × Bool) × CardDealer) :=
  match d.peek_at_open_train_card card_index with
  | Except.error e => some (Except.error e, d)
  | Except.ok card =>
    if is_second_draw && card.is_wild then
      some (Except.error DealerErr.wildOnSecondDraw, d)
    else
      match d.draw_from_close_train_card_deck σ with
      | (r, d1) =>
        match CardDealer.maybe_reshuffle_open_train_card_deck σ fuel
            { d1 with
              open_train_card_deck := d1.open_train_card_deck.set card_index r.toOption } with
        | none => none
        | some p => some (Except.ok (card, p.2), p.1)

/-- The `for _ in 0..NUM_DRAWN_DESTINATION_CARDS` loop of
`CardDealer::draw_from_destination_card_deck`: pop up to `n` cards from the
back of the deque, in pop order. -/
def drawDestinationLoop : Nat → List DestinationCard → List DestinationCard × List DestinationCard
  | 0, deck => ([], deck)
  | n + 1, deck =>
    match popLast deck with
    | none => ([], deck)
    | some (c, rest) =>
      let p := drawDestinationLoop n rest
      (c :: p.1, p.2)

/-- `CardDealer::draw_from_destination_card_deck`. -/
def CardDealer.draw_from_destination_card_deck (d : CardDealer) :
    Except DealerErr (List DestinationCard) × CardDealer :=
  if d.destination_card_deck = [] then (Except.error DealerErr.destinationDeckEmpty, d)
  else
    let p := drawDestinationLoop 3 d.destination_card_deck
    (Except.ok p.1, { d with destination_card_deck := p.2 })

/-- `CardDealer::discard_train_cards`. -/
def CardDealer.discard_train_cards
    (σ : List TrainColor → List TrainColor) (train_cards : List TrainColor) (d : CardDealer) :
    CardDealer :=
  CardDealer.maybe_reshuffle_and_swap_discarded_deck σ
    { d with discarded_train_card_deck := d.discarded_train_card_deck ++ train_cards }

/-- `CardDealer::discard_destination_cards`: push each card to the front of
the destination deque, in order. -/
def CardDealer.discard_destination_cards
    (destination_cards : List DestinationCard) (d : CardDealer) : CardDealer :=
  { d with
    destination_card_deck :=
      destination_cards.foldl (fun deck c => c :: deck) d.destination_card_deck }

/-- `CardDealer::can_player_draw_again_this_turn`. -/
def CardDealer.can_player_draw_again_this_turn (d : CardDealer) : Bool :=
  !d.close_train_card_deck.isEmpty
    || d.open_train_card_deck.any (fun c =>
        match c with
        | some color => color.is_not_wild
        | none => false)

/-- `n` consecutive `draw_from_close_train_card_deck().unwrap()` calls
(`array_init` in `CardDealer::initial_draw`); an `Err` draw panics. -/
def CardDealer.draw_close_unwrap_n
    (σ : List TrainColor → List TrainColor) : Nat → CardDealer → Res (List TrainColor × CardDealer)
  | 0, d => Res.ok ([], d)
  | n + 1, d =>
    match d.draw_from_close_train_card_deck σ with
    | (Except.ok c, d1) =>
      match CardDealer.draw_close_unwrap_n σ n d1 with
      | Res.ok (cs, d2) => Res.ok (c :: cs, d2)
      | Res.panic => Res.panic
      | Res.fuelOut => Res.fuelOut
    | (Except.error _, _) => Res.panic

/-- `CardDealer::initial_draw`: four close-deck draws and one destination
draw, all unwrapped (so a short deck panics, and fewer than three returned
destination cards panic at `into_inner().unwrap()`). -/
def CardDealer.initial_draw
    (σ : List TrainColor → List TrainColor) (d : CardDealer) :
    Res (List TrainColor × List DestinationCard × CardDealer) :=
  match CardDealer.draw_close_unwrap_n σ 4 d with
  | Res.ok (tcs, d1) =>
    match d1.draw_from_destination_card_deck with
    | (Except.ok dcs, d2) =>
      if dcs.length = 3 then Res.ok (tcs, dcs, d2) else Res.panic
    | (Except.error _, _) => Res.panic
  | Res.panic => Res.panic
  | Res.fuelOut => Res.fuelOut

/-- The 110-card census built by the loop in `CardDealer::new`:
for each color in declaration order, 14 copies if wild and 12 otherwise. -/
def all_train_cards_census : List TrainColor :=
  TrainColor.iter.flatMap (fun color =>
    List.replicate (if color.is_wild then 14 else 12) color)

/-- The thirty destination cards of `CardDealer::generate_destination_cards`,
in source order (they are shuffled before use). -/
def the_destination_cards : List DestinationCard :=
  [⟨(City.Boston, City.Miami), 12⟩,
   ⟨(City.Calgary, City.Phoenix), 13⟩,
   ⟨(City.Calgary, City.SaltLakeCity), 7⟩,
   ⟨(City.Chicago, City.NewOrleans), 7⟩,
   ⟨(City.Chicago, City.SantaFe), 9⟩,
   ⟨(City.Dallas, City.NewYork), 11⟩,
   ⟨(City.Denver, City.ElPaso), 4⟩,
   ⟨(City.Denver, City.Pittsburgh), 11⟩,
   ⟨(City.Duluth, City.ElPaso), 10⟩,
   ⟨(City.Duluth, City.Houston), 8⟩,
   ⟨(City.Helena, City.LosAngeles), 8⟩,
   ⟨(City.KansasCity, City.Houston), 5⟩,
   ⟨(City.LosAngeles, City.Chicago), 16⟩,
   ⟨(City.LosAngeles, City.Miami), 20⟩,
   ⟨(City.LosAngeles, City.NewYork), 21⟩,
   ⟨(City.Montreal, City.Atlanta), 9⟩,
   ⟨(City.Montreal, City.NewOrleans), 13⟩,
   ⟨(City.NewYork, City.Atlanta), 6⟩,
   ⟨(City.Portland, City.Nashville), 17⟩,
   ⟨(City.Portland, City.Phoenix), 11⟩,
   ⟨(City.SanFrancisco, City.Atlanta), 17⟩,
   ⟨(City.SaultStMarie, City.Nashville), 8⟩,
   ⟨(City.SaultStMarie, City.OklahomaCity), 9⟩,
   ⟨(City.Seattle, City.LosAngeles), 9⟩,
   ⟨(City.Seattle, City.NewYork), 22⟩,
   ⟨(City.Toronto, City.Miami), 10⟩,
   ⟨(City.Vancouver, City.Montreal), 20⟩,
   ⟨(City.Vancouver, City.SantaFe), 13⟩,
   ⟨(City.Winnipeg, City.Houston), 12⟩,
   ⟨(City.Winnipeg, City.LittleRock), 11⟩]

/-- `CardDealer::new`: shuffle the census, deal the first five cards face up,
put the rest in the close deck, generate and shuffle the destination deck,
and run the wild-cap normalization once.  `σ` shuffles train cards, `σd`
shuffles destination cards, `fuel` bounds the normalization recursion. -/
def CardDealer.new (σ : List TrainColor → List TrainColor)
    (σd : List DestinationCard → List DestinationCard) (fuel : Nat) : Option CardDealer :=
  let all := σ all_train_cards_census
  let d : CardDealer :=
    { open_train_card_deck := (all.take 5).map some,
      close_train_card_deck := all.drop 5,
      discarded_train_card_deck := [],
      destination_card_deck := σd the_destination_cards }
  (d.maybe_reshuffle_open_train_card_deck σ fuel).map Prod.fst

/-! ## Dealer lemmas: the wild cap (invariant I1) -/

/-- Invariant I1 of the spec, exactly the negation of what
`should_reshuffle_open_train_card_deck` tests: fewer than three wild cards
face up, or fewer than three real cards across the three train decks. -/
def CardDealer.wild_cap (d : CardDealer) : Prop :=
  d.num_wild_cards_in_open_train_card_deck < 3 ∨ d.num_non_wild_cards_in_all_decks < 3

instance (d : CardDealer) : Decidable d.wild_cap := by
  unfold CardDealer.wild_cap
  infer_instance

theorem should_reshuffle_eq_false_iff (d : CardDealer) :
    d.should_reshuffle_open_train_card_deck = false ↔ d.wild_cap := by
  unfold CardDealer.should_reshuffle_open_train_card_deck CardDealer.wild_cap
  by_cases h : d.num_wild_cards_in_open_train_card_deck < 3
  · simp [h]
  · rw [if_neg h]
    simp only [decide_eq_false_iff_not, not_le]
    omega

theorem maybe_reshuffle_some_wild_cap (σ : List TrainColor → List TrainColor)
    (fuel : Nat) (d d' : CardDealer) (b : Bool)
    (h : d.maybe_reshuffle_open_train_card_deck σ fuel = some (d', b)) :
    d'.wild_cap := by
  rw [← should_reshuffle_eq_false_iff]
  induction fuel generalizing d b with
  | zero => simp [CardDealer.maybe_reshuffle_open_train_card_deck] at h
  | succ n ih =>
    rw [CardDealer.maybe_reshuffle_open_train_card_deck] at h
    by_cases hs : d.should_reshuffle_open_train_card_deck
    · rw [if_pos hs] at h
      rcases hm : CardDealer.maybe_reshuffle_open_train_card_deck σ n
          (d.reshuffle_open_deck_once σ) with _ | p
      · rw [hm] at h
        simp at h
      · rw [hm] at h
        simp at h
        exact h.1 ▸ ih _ p.2 (by rw [hm, ← h.1])
    · rw [if_neg hs] at h
      simp at h
      rw [← h.1]
      simpa using hs

/-! ## Dealer lemmas: conservation of the train-card census -/

/-- The multiset of train cards occupying the open deck slots. -/
def openCards (l : List (Option TrainColor)) : Multiset TrainColor :=
  (l.filterMap id : Multiset TrainColor)

/-- The multiset of train cards held by the three train-card decks of a dealer. -/
def CardDealer.train_census (d : CardDealer) : Multiset TrainColor :=
  openCards d.open_train_card_deck
    + (d.close_train_card_deck : Multiset TrainColor)
    + (d.discarded_train_card_deck : Multiset TrainColor)

theorem openCards_cons (o : Option TrainColor) (l : List (Option TrainColor)) :
    openCards (o :: l) = (o.toList : Multiset TrainColor) + openCards l := by
  cases o <;> simp [openCards, List.filterMap_cons, Multiset.cons_coe]

theorem openCards_append (l1 l2 : List (Option TrainColor)) :
    openCards (l1 ++ l2) = openCards l1 + openCards l2 := by
  simp [openCards, List.filterMap_append]

theorem openCards_set (l : List (Option TrainColor)) (i : Nat) (v old : Option TrainColor)
    (h : l[i]? = some old) :
    openCards (l.set i v) + (old.toList : Multiset TrainColor)
      = openCards l + (v.toList : Multiset TrainColor) := by
  induction l generalizing i with
  | nil => simp at h
  | cons x xs ih =>
    cases i with
    | zero =>
      simp only [List.getElem?_cons_zero, Option.some_inj] at h
      subst h
      rw [List.set_cons_zero, openCards_cons, openCards_cons]
      abel
    | succ j =>
      simp only [List.getElem?_cons_succ] at h
      rw [List.set_cons_succ, openCards_cons, openCards_cons]
      have := ih j h
      calc (Option.toList x : Multiset TrainColor) + openCards (xs.set j v)
            + (Option.toList old : Multiset TrainColor)
          = (Option.toList x : Multiset TrainColor)
            + (openCards (xs.set j v) + (Option.toList old : Multiset TrainColor)) := by abel
        _ = (Option.toList x : Multiset TrainColor)
            + (openCards xs + (Option.toList v : Multiset TrainColor)) := by rw [this]
        _ = (Option.toList x : Multiset TrainColor) + openCards xs
            + (Option.toList v : Multiset TrainColor) := by abel

theorem census_maybe_swap (σ : List TrainColor → List TrainColor)
    (hσ : ∀ l, (σ l).Perm l) (d : CardDealer) :
    (d.maybe_reshuffle_and_swap_discarded_deck σ).train_census = d.train_census := by
  unfold CardDealer.maybe_reshuffle_and_swap_discarded_deck
  split
  · rfl
  · rename_i hcond
    push_neg at hcond
    unfold CardDealer.train_census
    simp only []
    rw [hcond.1]
    have : ((σ d.discarded_train_card_deck : List TrainColor) : Multiset TrainColor)
        = (d.discarded_train_card_deck : Multiset TrainColor) :=
      Multiset.coe_eq_coe.mpr (hσ _)
    simp [this]

theorem open_maybe_swap (σ : List TrainColor → List TrainColor) (d : CardDealer) :
    (d.maybe_reshuffle_and_swap_discarded_deck σ).open_train_card_deck
      = d.open_train_card_deck := by
  unfold CardDealer.maybe_reshuffle_and_swap_discarded_deck
  split <;> rfl

theorem dest_maybe_swap (σ : List TrainColor → List TrainColor) (d : CardDealer) :
    (d.maybe_reshuffle_and_swap_discarded_deck σ).destination_card_deck
      = d.destination_card_deck := by
  unfold CardDealer.maybe_reshuffle_and_swap_discarded_deck
  split <;> rfl

theorem census_refill (n : Nat) (d : CardDealer) :
    (CardDealer.refill_open_deck n d).train_census = d.train_census := by
  induction n generalizing d with
  | zero => rfl
  | succ m ih =>
    rw [CardDealer.refill_open_deck]
    rcases hp : popLast d.close_train_card_deck with _ | ⟨c, rest⟩
    · rfl
    · rw [ih]
      unfold CardDealer.train_census
      simp only []
      rw [openCards_append]
      have hclose : (d.close_train_card_deck : Multiset TrainColor) = c ::ₘ (rest : Multiset TrainColor) := by
        rw [Multiset.cons_coe, Multiset.coe_eq_coe]
        exact popLast_perm _ _ _ hp
      rw [hclose]
      have : openCards [some c] = ({c} : Multiset TrainColor) := by
        simp [openCards]
      rw [this, ← Multiset.singleton_add]
      abel

theorem dest_refill (n : Nat) (d : CardDealer) :
    (CardDealer.refill_open_deck n d).destination_card_deck = d.destination_card_deck := by
  induction n generalizing d with
  | zero => rfl
  | succ m ih =>
    rw [CardDealer.refill_open_deck]
    rcases hp : popLast d.close_train_card_deck with _ | ⟨c, rest⟩
    · rfl
    · rw [ih]

theorem census_reshuffle_once (σ : List TrainColor → List TrainColor)
    (hσ : ∀ l, (σ l).Perm l) (d : CardDealer) :
    (d.reshuffle_open_deck_once σ).train_census = d.train_census := by
  unfold CardDealer.reshuffle_open_deck_once
  rw [census_refill, census_maybe_swap σ hσ, census_refill]
  unfold CardDealer.train_census openCards
  simp only []
  rw [← Multiset.coe_add]
  simp only [List.filterMap_nil, Multiset.coe_nil]
  abel

theorem census_maybe_reshuffle (σ : List TrainColor → List TrainColor)
    (hσ : ∀ l, (σ l).Perm l) (fuel : Nat) (d d' : CardDealer) (b : Bool)
    (h : d.maybe_reshuffle_open_train_card_deck σ fuel = some (d', b)) :
    d'.train_census = d.train_census := by
  induction fuel generalizing d b with
  | zero => simp [CardDealer.maybe_reshuffle_open_train_card_deck] at h
  | succ n ih =>
    rw [CardDealer.maybe_reshuffle_open_train_card_deck] at h
    by_cases hs : d.should_reshuffle_open_train_card_deck
    · rw [if_pos hs] at h
      rcases hm : CardDealer.maybe_reshuffle_open_train_card_deck σ n
          (d.reshuffle_open_deck_once σ) with _ | p
      · rw [hm] at h
        simp at h
      · rw [hm] at h
        simp at h
        have := ih _ p.2 (by rw [hm, ← h.1])
        rw [this, census_reshuffle_once σ hσ]
    · rw [if_neg hs] at h
      simp at h
      rw [← h.1]

/-- The multiset of train cards in the close and discarded decks together. -/
def CardDealer.deckCards (d : CardDealer) : Multiset TrainColor :=
  (d.close_train_card_deck : Multiset TrainColor)
    + (d.discarded_train_card_deck : Multiset TrainColor)

theorem census_eq_open_add_deck (d : CardDealer) :
    d.train_census = openCards d.open_train_card_deck + d.deckCards := by
  unfold CardDealer.train_census CardDealer.deckCards
  abel

theorem deckCards_maybe_swap (σ : List TrainColor → List TrainColor)
    (hσ : ∀ l, (σ l).Perm l) (d : CardDealer) :
    (d.maybe_reshuffle_and_swap_discarded_deck σ).deckCards = d.deckCards := by
  unfold CardDealer.maybe_reshuffle_and_swap_discarded_deck
  split
  · rfl
  · rename_i hcond
    push_neg at hcond
    unfold CardDealer.deckCards
    simp only []
    rw [hcond.1]
    have : ((σ d.discarded_train_card_deck : List TrainColor) : Multiset TrainColor)
        = (d.discarded_train_card_deck : Multiset TrainColor) :=
      Multiset.coe_eq_coe.mpr (hσ _)
    simp [this]

theorem census_draw_close_ok (σ : List TrainColor → List TrainColor)
    (hσ : ∀ l, (σ l).Perm l) (d d' : CardDealer) (c : TrainColor)
    (h : d.draw_from_close_train_card_deck σ = (Except.ok c, d')) :
    d.train_census = c ::ₘ d'.train_census := by
  unfold CardDealer.draw_from_close_train_card_deck at h
  rcases hp : popLast d.close_train_card_deck with _ | ⟨c2, rest⟩
  · rw [hp] at h
    simp at h
  · rw [hp] at h
    simp only [Prod.mk.injEq, Except.ok.injEq] at h
    obtain ⟨rfl, rfl⟩ := h
    rw [census_maybe_swap σ hσ]
    unfold CardDealer.train_census
    simp only []
    have hclose : (d.close_train_card_deck : Multiset TrainColor)
        = c2 ::ₘ (rest : Multiset TrainColor) := by
      rw [Multiset.cons_coe, Multiset.coe_eq_coe]
      exact popLast_perm _ _ _ hp
    rw [hclose, ← Multiset.singleton_add, ← Multiset.singleton_add]
    abel

theorem open_draw_close (σ : List TrainColor → List TrainColor) (d : CardDealer) :
    (d.draw_from_close_train_card_deck σ).2.open_train_card_deck
      = d.open_train_card_deck := by
  unfold CardDealer.draw_from_close_train_card_deck
  rcases hp : popLast d.close_train_card_deck with _ | ⟨c2, rest⟩
  · rfl
  · simp only []
    rw [open_maybe_swap]

theorem deckCards_draw_close_ok (σ : List TrainColor → List TrainColor)
    (hσ : ∀ l, (σ l).Perm l) (d d' : CardDealer) (c : TrainColor)
    (h : d.draw_from_close_train_card_deck σ = (Except.ok c, d')) :
    d.deckCards = c ::ₘ d'.deckCards := by
  have h1 := census_draw_close_ok σ hσ d d' c h
  have h2 : d'.open_train_card_deck = d.open_train_card_deck := by
    have := open_draw_close σ d
    rw [h] at this
    exact this
  rw [census_eq_open_add_deck, census_eq_open_add_deck, h2,
    ← Multiset.singleton_add] at h1
  have h3 : openCards d.open_train_card_deck + d.deckCards
      = openCards d.open_train_card_deck + ({c} + d'.deckCards) := by
    rw [h1]
    abel
  have := add_left_cancel h3
  rw [this, Multiset.singleton_add]

theorem draw_close_err (σ : List TrainColor → List TrainColor) (d : CardDealer)
    (e : DealerErr) (d' : CardDealer)
    (h : d.draw_from_close_train_card_deck σ = (Except.error e, d')) : d' = d := by
  unfold CardDealer.draw_from_close_train_card_deck at h
  rcases hp : popLast d.close_train_card_deck with _ | ⟨c2, rest⟩
  · rw [hp] at h
    simp at h
    exact h.2.symm
  · rw [hp] at h
    simp at h

theorem ms_swap_helper {α : Type} (O S C : Multiset α) (x y : α)
    (h : S + {x} = O + {y}) : O + (y ::ₘ C) = x ::ₘ (S + C) := by
  rw [← Multiset.singleton_add, ← Multiset.singleton_add]
  calc O + ({y} + C) = (O + {y}) + C := by abel
    _ = (S + {x}) + C := by rw [h]
    _ = {x} + (S + C) := by abel

theorem ms_drop_helper {α : Type} (O S C : Multiset α) (x : α)
    (h : S + {x} = O) : O + C = x ::ₘ (S + C) := by
  rw [← h, ← Multiset.singleton_add]
  abel

theorem census_draw_open_ok (σ : List TrainColor → List TrainColor)
    (hσ : ∀ l, (σ l).Perm l) (fuel card_index : Nat) (is_second_draw : Bool)
    (d d' : CardDealer) (c : TrainColor) (rs : Bool)
    (h : d.draw_from_open_train_card_deck σ fuel card_index is_second_draw
        = some (Except.ok (c, rs), d')) :
    d.train_census = c ::ₘ d'.train_census := by
  unfold CardDealer.draw_from_open_train_card_deck at h
  rcases hpk : d.peek_at_open_train_card card_index with e | card
  · rw [hpk] at h
    simp at h
  · rw [hpk] at h
    simp only [] at h
    -- the peek succeeded, so slot `card_index` holds `some card`
    have hslot : d.open_train_card_deck[card_index]? = some (some card) := by
      unfold CardDealer.peek_at_open_train_card at hpk
      rcases hg : d.open_train_card_deck[card_index]? with _ | o
      · rw [hg] at hpk
        simp at hpk
      · rcases o with _ | c0
        · rw [hg] at hpk
          simp at hpk
        · rw [hg] at hpk
          simp at hpk
          simp [hg, hpk]
    by_cases hw : (is_second_draw && card.is_wild) = true
    · rw [if_pos hw] at h
      simp at h
    · rw [if_neg hw] at h
      rcases hdc : d.draw_from_close_train_card_deck σ with ⟨r, d1⟩
      rw [hdc] at h
      simp only [] at h
      rcases hm : CardDealer.maybe_reshuffle_open_train_card_deck σ fuel
          { d1 with open_train_card_deck :=
              d1.open_train_card_deck.set card_index r.toOption } with _ | p
      all_goals rw [hm] at h
      · simp at h
      · simp only [Option.some_inj, Prod.mk.injEq, Except.ok.injEq] at h
        obtain ⟨⟨rfl, -⟩, rfl⟩ := h
        rw [census_maybe_reshuffle σ hσ fuel _ p.1 p.2 (by rw [hm])]
        rcases r with e | c2
        · -- close deck empty: the slot becomes `None`, `d1 = d`
          have hd1 : d1 = d := draw_close_err σ d e d1 hdc
          rw [census_eq_open_add_deck, census_eq_open_add_deck, hd1]
          have hset := openCards_set d.open_train_card_deck card_index
            none (some card) hslot
          simp only [Option.toList, Multiset.coe_singleton, Multiset.coe_nil,
            add_zero] at hset
          exact ms_drop_helper _ _ _ _ hset
        · -- close deck non-empty: the slot is refilled with the popped card
          have hopen1 : d1.open_train_card_deck = d.open_train_card_deck := by
            have h5 := open_draw_close σ d
            rw [hdc] at h5
            exact h5
          have hdk : d.deckCards = c2 ::ₘ d1.deckCards :=
            deckCards_draw_close_ok σ hσ d d1 c2 hdc
          have hset := openCards_set d.open_train_card_deck card_index
            (some c2) (some card) hslot
          simp only [Option.toList, Multiset.coe_singleton] at hset
          rw [census_eq_open_add_deck, census_eq_open_add_deck, hopen1, hdk]
          exact ms_swap_helper _ _ _ _ _ hset

theorem census_discard_train_cards (σ : List TrainColor → List TrainColor)
    (hσ : ∀ l, (σ l).Perm l) (cards : List TrainColor) (d : CardDealer) :
    (d.discard_train_cards σ cards).train_census
      = d.train_census + (cards : Multiset TrainColor) := by
  unfold CardDealer.discard_train_cards
  rw [census_maybe_swap σ hσ]
  unfold CardDealer.train_census
  simp only []
  rw [← Multiset.coe_add]
  abel

theorem census_dest_draw (d : CardDealer) :
    ((d.draw_from_destination_card_deck).2).train_census = d.train_census := by
  unfold CardDealer.draw_from_destination_card_deck
  split
  · rfl
  · rfl

theorem census_discard_destination (cards : List DestinationCard) (d : CardDealer) :
    (d.discard_destination_cards cards).train_census = d.train_census := rfl

theorem census_new (σ : List TrainColor → List TrainColor)
    (σd : List DestinationCard → List DestinationCard)
    (hσ : ∀ l, (σ l).Perm l) (fuel : Nat) (d : CardDealer)
    (h : CardDealer.new σ σd fuel = some d) :
    d.train_census = (all_train_cards_census : Multiset TrainColor) := by
  unfold CardDealer.new at h
  simp only [Option.map_eq_some'] at h
  obtain ⟨p, hp, hd⟩ := h
  subst hd
  rw [census_maybe_reshuffle σ hσ fuel _ p.1 p.2 (by rw [hp])]
  unfold CardDealer.train_census
  simp only []
  have hopen : openCards ((List.take 5 (σ all_train_cards_census)).map some)
      = ((List.take 5 (σ all_train_cards_census)) : Multiset TrainColor) := by
    unfold openCards
    rw [List.filterMap_map]
    simp
  rw [hopen]
  have hperm : ((σ all_train_cards_census : List TrainColor) : Multiset TrainColor)
      = (all_train_cards_census : Multiset TrainColor) :=
    Multiset.coe_eq_coe.mpr (hσ _)
  rw [← hperm]
  simp only [Multiset.coe_nil, add_zero]
  rw [Multiset.coe_add, List.take_append_drop]

/-! ## Dealer lemmas: the wild cap after each operation -/

theorem num_wild_open_congr (d d' : CardDealer)
    (h : d'.open_train_card_deck = d.open_train_card_deck) :
    d'.num_wild_cards_in_open_train_card_deck = d.num_wild_cards_in_open_train_card_deck := by
  unfold CardDealer.num_wild_cards_in_open_train_card_deck
  rw [h]

theorem nonwild_maybe_swap (σ : List TrainColor → List TrainColor)
    (hσ : ∀ l, (σ l).Perm l) (d : CardDealer) :
    (d.maybe_reshuffle_and_swap_discarded_deck σ).num_non_wild_cards_in_all_decks
      = d.num_non_wild_cards_in_all_decks := by
  unfold CardDealer.maybe_reshuffle_and_swap_discarded_deck
  split
  · rfl
  · rename_i hcond
    push_neg at hcond
    unfold CardDealer.num_non_wild_cards_in_all_decks
    simp only []
    rw [hcond.1, (hσ d.discarded_train_card_deck).countP_eq]
    simp

theorem nonwild_draw_close_le (σ : List TrainColor → List TrainColor)
    (hσ : ∀ l, (σ l).Perm l) (d : CardDealer) :
    ((d.draw_from_close_train_card_deck σ).2).num_non_wild_cards_in_all_decks
      ≤ d.num_non_wild_cards_in_all_decks := by
  unfold CardDealer.draw_from_close_train_card_deck
  rcases hp : popLast d.close_train_card_deck with _ | ⟨c, rest⟩
  · exact le_refl _
  · simp only []
    rw [nonwild_maybe_swap σ hσ]
    unfold CardDealer.num_non_wild_cards_in_all_decks
    simp only []
    have : rest.countP TrainColor.is_not_wild ≤ d.close_train_card_deck.countP TrainColor.is_not_wild := by
      rw [(popLast_perm _ _ _ hp).countP_eq, List.countP_cons]
      exact Nat.le_add_right _ _
    omega

/-- `draw_from_close_train_card_deck` preserves the wild cap: the open deck
is untouched, and the pool of real cards only shrinks. -/
theorem wild_cap_draw_close (σ : List TrainColor → List TrainColor)
    (hσ : ∀ l, (σ l).Perm l) (d : CardDealer) (h : d.wild_cap) :
    ((d.draw_from_close_train_card_deck σ).2).wild_cap := by
  rcases h with h | h
  · exact Or.inl (by rw [num_wild_open_congr d _ (open_draw_close σ d)]; exact h)
  · exact Or.inr (lt_of_le_of_lt (nonwild_draw_close_le σ hσ d) h)

/-- A completed `CardDealer::new` satisfies the wild cap. -/
theorem wild_cap_new (σ : List TrainColor → List TrainColor)
    (σd : List DestinationCard → List DestinationCard) (fuel : Nat) (d : CardDealer)
    (h : CardDealer.new σ σd fuel = some d) : d.wild_cap := by
  unfold CardDealer.new at h
  simp only [Option.map_eq_some'] at h
  obtain ⟨p, hp, hd⟩ := h
  subst hd
  exact maybe_reshuffle_some_wild_cap σ fuel _ p.1 p.2 (by rw [hp])

/-- A completed, successful `draw_from_open_train_card_deck` re-establishes
the wild cap, whatever the input state was. -/
theorem wild_cap_draw_open (σ : List TrainColor → List TrainColor)
    (fuel card_index : Nat) (is_second_draw : Bool) (d d' : CardDealer)
    (c : TrainColor) (rs : Bool)
    (h : d.draw_from_open_train_card_deck σ fuel card_index is_second_draw
        = some (Except.ok (c, rs), d')) : d'.wild_cap := by
  unfold CardDealer.draw_from_open_train_card_deck at h
  rcases hpk : d.peek_at_open_train_card card_index with e | card
  · rw [hpk] at h
    simp at h
  · rw [hpk] at h
    simp only [] at h
    by_cases hw : (is_second_draw && card.is_wild) = true
    · rw [if_pos hw] at h
      simp at h
    · rw [if_neg hw] at h
      rcases hdc : d.draw_from_close_train_card_deck σ with ⟨r, d1⟩
      rw [hdc] at h
      simp only [] at h
      rcases hm : CardDealer.maybe_reshuffle_open_train_card_deck σ fuel
          { d1 with open_train_card_deck :=
              d1.open_train_card_deck.set card_index r.toOption } with _ | p
      all_goals rw [hm] at h
      · simp at h
      · simp only [Option.some_inj, Prod.mk.injEq, Except.ok.injEq] at h
        obtain ⟨-, rfl⟩ := h
        exact maybe_reshuffle_some_wild_cap σ fuel _ p.1 p.2 (by rw [hm])

/-- Error returns of `draw_from_open_train_card_deck` leave the dealer
untouched. -/
theorem draw_open_err_state (σ : List TrainColor → List TrainColor)
    (fuel card_index : Nat) (is_second_draw : Bool) (d d' : CardDealer) (e : DealerErr)
    (h : d.draw_from_open_train_card_deck σ fuel card_index is_second_draw
        = some (Except.error e, d')) : d' = d := by
  unfold CardDealer.draw_from_open_train_card_deck at h
  rcases hpk : d.peek_at_open_train_card card_index with e2 | card
  · rw [hpk] at h
    simp at h
    exact h.2.symm
  · rw [hpk] at h
    simp only [] at h
    by_cases hw : (is_second_draw && card.is_wild) = true
    · rw [if_pos hw] at h
      simp at h
      exact h.2.symm
    · rw [if_neg hw] at h
      rcases hdc : d.draw_from_close_train_card_deck σ with ⟨r, d1⟩
      rw [hdc] at h
      simp only [] at h
      rcases hm : CardDealer.maybe_reshuffle_open_train_card_deck σ fuel
          { d1 with open_train_card_deck :=
              d1.open_train_card_deck.set card_index r.toOption } with _ | p
      all_goals rw [hm] at h
      · simp at h
      · simp at h

/-- Error returns of `draw_from_destination_card_deck` leave the dealer
untouched. -/
theorem draw_dest_err_state (d d' : CardDealer) (e : DealerErr)
    (h : d.draw_from_destination_card_deck = (Except.error e, d')) : d' = d := by
  unfold CardDealer.draw_from_destination_card_deck at h
  split at h
  · simp at h
    exact h.2.symm
  · simp at h

/-! ## Sequences of public dealer operations

Reachability of dealer states under the public operations of `card.rs`,
starting from `CardDealer::new`.  A `DealerState` tracks the dealer and the
multiset of train cards currently held by callers (drawn and not yet
discarded back), which is what the conservation invariant I2 talks about. -/

/-- One public dealer operation, with its caller-supplied arguments. -/
inductive DealerOp where
  | draw_from_close_train_card_deck
  | draw_from_open_train_card_deck (card_index : Nat) (is_second_draw : Bool)
  | draw_from_destination_card_deck
  | discard_train_cards (cards : List TrainColor)
  | discard_destination_cards (cards : List DestinationCard)
deriving DecidableEq, Repr

/-- A dealer together with the train cards held outside it by callers. -/
structure DealerState where
  dealer : CardDealer
  extracted : List TrainColor
deriving DecidableEq, Repr

/-- Apply one public dealer operation.  Drawn train cards move into
`extracted`; `discard_train_cards` is allowed only for cards the callers
actually hold (as in the game, players discard from their hands), and
removes them from `extracted`.  `none` = the wild-cap normalization fuel ran
out. -/
def DealerState.apply (σ : List TrainColor → List TrainColor) (fuel : Nat) :
    DealerOp → DealerState → Option DealerState
  | DealerOp.draw_from_close_train_card_deck, s =>
    match s.dealer.draw_from_close_train_card_deck σ with
    | (Except.ok c, d') => some ⟨d', c :: s.extracted⟩
    | (Except.error _, d') => some ⟨d', s.extracted⟩
  | DealerOp.draw_from_open_train_card_deck i snd, s =>
    match s.dealer.draw_from_open_train_card_deck σ fuel i snd with
    | none => none
    | some (Except.ok (c, _), d') => some ⟨d', c :: s.extracted⟩
    | some (Except.error _, d') => some ⟨d', s.extracted⟩
  | DealerOp.draw_from_destination_card_deck, s =>
    some ⟨(s.dealer.draw_from_destination_card_deck).2, s.extracted⟩
  | DealerOp.discard_train_cards cards, s =>
    if (cards : Multiset TrainColor) ≤ (s.extracted : Multiset TrainColor) then
      some ⟨s.dealer.discard_train_cards σ cards, s.extracted.diff cards⟩
    else none
  | DealerOp.discard_destination_cards cards, s =>
    some ⟨s.dealer.discard_destination_cards cards, s.extracted⟩

/-- Dealer states reachable from a fresh `CardDealer::new` by public dealer
operations, each step using some permutation as its shuffle oracle and some
amount of normalization fuel. -/
inductive DealerReach : DealerState → Prop where
  | init (σ : List TrainColor → List TrainColor)
      (σd : List DestinationCard → List DestinationCard) (fuel : Nat) (d : CardDealer)
      (hσ : ∀ l, (σ l).Perm l)
      (h : CardDealer.new σ σd fuel = some d) : DealerReach ⟨d, []⟩
  | step (σ : List TrainColor → List TrainColor) (fuel : Nat) (op : DealerOp)
      (s s' : DealerState) (hσ : ∀ l, (σ l).Perm l)
      (hr : DealerReach s) (h : s.apply σ fuel op = some s') : DealerReach s'

/-- The fixed starting census: 12 cards of each of the eight real colors and
14 wild cards, 110 in total. -/
def start_census : Multiset TrainColor := (all_train_cards_census : Multiset TrainColor)

theorem conservation_step (σ : List TrainColor → List TrainColor) (fuel : Nat)
    (op : DealerOp) (s s' : DealerState) (hσ : ∀ l, (σ l).Perm l)
    (h : s.apply σ fuel op = some s')
    (hinv : s.dealer.train_census + (s.extracted : Multiset TrainColor) = start_census) :
    s'.dealer.train_census + (s'.extracted : Multiset TrainColor) = start_census := by
  cases op with
  | draw_from_close_train_card_deck =>
    unfold DealerState.apply at h
    simp only [] at h
    rcases hdc : s.dealer.draw_from_close_train_card_deck σ with ⟨r, d1⟩
    rw [hdc] at h
    rcases r with e | c
    · simp only [Option.some_inj] at h
      rw [← h]
      have := draw_close_err σ s.dealer e d1 hdc
      rw [this]
      exact hinv
    · simp only [Option.some_inj] at h
      rw [← h]
      have hc := census_draw_close_ok σ hσ s.dealer d1 c hdc
      rw [← hinv, hc]
      simp only [← Multiset.cons_coe, ← Multiset.singleton_add]
      abel
  | draw_from_open_train_card_deck i snd =>
    unfold DealerState.apply at h
    simp only [] at h
    rcases hdo : s.dealer.draw_from_open_train_card_deck σ fuel i snd with _ | ⟨r, d1⟩
    · rw [hdo] at h
      simp at h
    · rw [hdo] at h
      rcases r with e | ⟨c, rs⟩
      · simp only [Option.some_inj] at h
        rw [← h]
        have := draw_open_err_state σ fuel i snd s.dealer d1 e hdo
        rw [this]
        exact hinv
      · simp only [Option.some_inj] at h
        rw [← h]
        have hc := census_draw_open_ok σ hσ fuel i snd s.dealer d1 c rs hdo
        rw [← hinv, hc]
        simp only [← Multiset.cons_coe, ← Multiset.singleton_add]
        abel
  | draw_from_destination_card_deck =>
    unfold DealerState.apply at h
    simp only [] at h
    simp only [Option.some_inj] at h
    rw [← h]
    rw [census_dest_draw]
    exact hinv
  | discard_train_cards cards =>
    unfold DealerState.apply at h
    simp only [] at h
    split at h
    · rename_i hle
      simp only [Option.some_inj] at h
      rw [← h]
      simp only []
      rw [census_discard_train_cards σ hσ]
      have hdiff : ((s.extracted.diff cards : List TrainColor) : Multiset TrainColor)
          = (s.extracted : Multiset TrainColor) - (cards : Multiset TrainColor) :=
        (Multiset.coe_sub _ _).symm
      rw [hdiff, ← hinv]
      have : (cards : Multiset TrainColor)
            + ((s.extracted : Multiset TrainColor) - (cards : Multiset TrainColor))
          = (s.extracted : Multiset TrainColor) :=
        add_tsub_cancel_of_le hle
      calc s.dealer.train_census + (cards : Multiset TrainColor)
            + ((s.extracted : Multiset TrainColor) - (cards : Multiset TrainColor))
          = s.dealer.train_census + ((cards : Multiset TrainColor)
            + ((s.extracted : Multiset TrainColor) - (cards : Multiset TrainColor))) := by
            rw [add_assoc]
        _ = s.dealer.train_census + (s.extracted : Multiset TrainColor) := by rw [this]
    · simp at h
  | discard_destination_cards cards =>
    unfold DealerState.apply at h
    simp only [] at h
    simp only [Option.some_inj] at h
    rw [← h]
    rw [census_discard_destination]
    exact hinv

/-- Conservation along any reachable dealer state. -/
theorem conservation_reach (s : DealerState) (hr : DealerReach s) :
    s.dealer.train_census + (s.extracted : Multiset TrainColor) = start_census := by
  induction hr with
  | init σ σd fuel d hσ h =>
    simp only [Multiset.coe_nil, add_zero]
    exact census_new σ σd hσ fuel d h
  | step σ fuel op s s' hσ hr h ih =>
    exact conservation_step σ fuel op s s' hσ h ih

/-! ## A reachable dealer state that breaks invariant I1 after
`discard_train_cards` (the discard path never runs the wild-cap
normalization). -/

/-- The 102 cards drained from the close deck in the counterexample trace:
everything except the five face-up cards (3 red, 2 wild) and the three wild
cards left at the bottom of the close deck. -/
def c1_junk : List TrainColor :=
  List.replicate 12 TrainColor.Black ++ List.replicate 12 TrainColor.Blue
    ++ List.replicate 12 TrainColor.Green ++ List.replicate 12 TrainColor.Orange
    ++ List.replicate 12 TrainColor.Pink ++ List.replicate 9 TrainColor.Red
    ++ List.replicate 12 TrainColor.White ++ List.replicate 9 TrainColor.Wild
    ++ List.replicate 12 TrainColor.Yellow

/-- The whole 110-card deck in the order dealt by the counterexample shuffle:
face-up `[Red, Red, Red, Wild, Wild]`, then a close deck whose bottom three
cards are wild and whose top 102 cards are `c1_junk`. -/
def c1_all : List TrainColor :=
  [TrainColor.Red, TrainColor.Red, TrainColor.Red, TrainColor.Wild, TrainColor.Wild,
   TrainColor.Wild, TrainColor.Wild, TrainColor.Wild] ++ c1_junk

/-- A legitimate shuffle oracle (it permutes every input) that deals
`c1_all` from the starting census. -/
def c1_shuffle : List TrainColor → List TrainColor :=
  fun l => if l = all_train_cards_census then c1_all else l

theorem c1_shuffle_perm : ∀ l, (c1_shuffle l).Perm l := by
  intro l
  unfold c1_shuffle
  split
  · rename_i hl
    subst hl
    rw [List.perm_iff_count]
    decide
  · exact List.Perm.refl l

/-- The dealer produced by `CardDealer::new` under `c1_shuffle`. -/
def c1_dealer0 : CardDealer :=
  { open_train_card_deck :=
      [some TrainColor.Red, some TrainColor.Red, some TrainColor.Red,
       some TrainColor.Wild, some TrainColor.Wild],
    close_train_card_deck :=
      [TrainColor.Wild, TrainColor.Wild, TrainColor.Wild] ++ c1_junk,
    discarded_train_card_deck := [],
    destination_card_deck := the_destination_cards }

/-- Drain the 102 junk cards, draw the face-up red at slot 0 (its refill
makes the open deck `[Wild, Red, Red, Wild, Wild]`, and the normalization
correctly relaxes the cap because only two real cards remain in the decks),
then discard three previously drawn red cards. -/
def c1_trace : List DealerOp :=
  List.replicate 102 DealerOp.draw_from_close_train_card_deck
    ++ [DealerOp.draw_from_open_train_card_deck 0 false,
        DealerOp.discard_train_cards [TrainColor.Red, TrainColor.Red, TrainColor.Red]]

/-- Apply a list of dealer operations in order (all with the same oracle and
fuel), failing if any operation fails. -/
def applyTrace (σ : List TrainColor → List TrainColor) (fuel : Nat) :
    List DealerOp → DealerState → Option DealerState
  | [], s => some s
  | op :: ops, s =>
    match s.apply σ fuel op with
    | some s2 => applyTrace σ fuel ops s2
    | none => none

theorem applyTrace_reach (σ : List TrainColor → List TrainColor) (fuel : Nat)
    (hσ : ∀ l, (σ l).Perm l) (ops : List DealerOp) (s s' : DealerState)
    (h : applyTrace σ fuel ops s = some s') (hr : DealerReach s) : DealerReach s' := by
  induction ops generalizing s with
  | nil =>
    unfold applyTrace at h
    simp at h
    exact h ▸ hr
  | cons op ops ih =>
    unfold applyTrace at h
    rcases ha : s.apply σ fuel op with _ | s2
    · rw [ha] at h
      simp at h
    · rw [ha] at h
      exact ih s2 h (DealerReach.step σ fuel op s s2 hσ hr ha)

/-- The state at the end of the counterexample trace: three wild cards
face up, `[Wild, Wild]` in the close deck, three red cards in the discard
deck -- and caller hands holding the rest. -/
def c1_final : DealerState :=
  { dealer :=
      { open_train_card_deck :=
          [some TrainColor.Wild, some TrainColor.Red, some TrainColor.Red,
           some TrainColor.Wild, some TrainColor.Wild],
        close_train_card_deck := [TrainColor.Wild, TrainColor.Wild],
        discarded_train_card_deck := [TrainColor.Red, TrainColor.Red, TrainColor.Red],
        destination_card_deck := the_destination_cards },
    extracted :=
      (TrainColor.Red :: c1_junk).diff [TrainColor.Red, TrainColor.Red, TrainColor.Red] }

theorem c1_new_eval : CardDealer.new c1_shuffle id 1 = some c1_dealer0 := by
  decide

theorem c1_trace_eval :
    applyTrace c1_shuffle 1 c1_trace ⟨c1_dealer0, []⟩ = some c1_final := by
  decide

/-! ## The route map (`map.rs`)

The Rust `Map` stores, for every adjacent pair of cities, *two* `BTreeMap`
entries -- `(a,b)` and `(b,a)` -- whose `ParallelRoutes` share their
`claimer` fields through `Arc<AtomSetOnce<..>>` (see
`Map::build_bidirectional_city_route_mapping`).  The embedding keeps the
fixed catalog (colors and lengths) as a list of entries in the orientation
written in `Map::build_us_map`, and holds the shared mutable claimer state
in a single function indexed by that catalog orientation, which is exactly
the sharing the `Arc` achieves: a write through either direction is a write
to the same cell. -/

section
open City TrainColor

/-- The 78 routes of `Map::build_us_map`, in source order: the city pair in
its written orientation, and the parallel routes as `(color, length)` pairs
(index = parallel route index). -/
def us_map_entries : List (CityToCity × List (TrainColor × Nat)) :=
  [((Atlanta, Charleston), [(Wild, 2)]),
   ((Atlanta, Miami), [(Blue, 5)]),
   ((Atlanta, Nashville), [(Wild, 1)]),
   ((Atlanta, NewOrleans), [(Orange, 4), (Yellow, 4)]),
   ((Atlanta, Raleigh), [(Wild, 2), (Wild, 2)]),
   ((Boston, Montreal), [(Wild, 2), (Wild, 2)]),
   ((Boston, NewYork), [(Yellow, 2), (Red, 2)]),
   ((Calgary, Helena), [(Wild, 4)]),
   ((Calgary, Seattle), [(Wild, 4)]),
   ((Calgary, Vancouver), [(Wild, 3)]),
   ((Calgary, Winnipeg), [(White, 6)]),
   ((Charleston, Miami), [(Pink, 4)]),
   ((Charleston, Raleigh), [(Wild, 2)]),
   ((Chicago, Duluth), [(Red, 3)]),
   ((Chicago, Omaha), [(Blue, 4)]),
   ((Chicago, Pittsburgh), [(Black, 3), (Orange, 3)]),
   ((Chicago, SaintLouis), [(Green, 2), (White, 2)]),
   ((Chicago, Toronto), [(White, 4)]),
   ((Dallas, ElPaso), [(Red, 4)]),
   ((Dallas, Houston), [(Wild, 1), (Wild, 1)]),
   ((Dallas, LittleRock), [(Wild, 2)]),
   ((Dallas, OklahomaCity), [(Wild, 2), (Wild, 2)]),
   ((Denver, Helena), [(Green, 4)]),
   ((Denver, KansasCity), [(Black, 4), (Orange, 4)]),
   ((Denver, OklahomaCity), [(Red, 4)]),
   ((Denver, Omaha), [(Pink, 4)]),
   ((Denver, Phoenix), [(White, 5)]),
   ((Denver, SaltLakeCity), [(Red, 3), (Yellow, 3)]),
   ((Denver, SantaFe), [(Wild, 2)]),
   ((Duluth, Helena), [(Orange, 6)]),
   ((Duluth, Omaha), [(Wild, 2), (Wild, 2)]),
   ((Duluth, SaultStMarie), [(Wild, 3)]),
   ((Duluth, Toronto), [(Pink, 6)]),
   ((Duluth, Winnipeg), [(Black, 4)]),
   ((ElPaso, Houston), [(Green, 6)]),
   ((ElPaso, LosAngeles), [(Black, 6)]),
   ((ElPaso, OklahomaCity), [(Yellow, 5)]),
   ((ElPaso, Phoenix), [(Wild, 3)]),
   ((ElPaso, SantaFe), [(Wild, 2)]),
   ((Helena, Omaha), [(Red, 5)]),
   ((Helena, SaltLakeCity), [(Pink, 3)]),
   ((Helena, Seattle), [(Yellow, 6)]),
   ((Helena, Winnipeg), [(Blue, 4)]),
   ((Houston, NewOrleans), [(Wild, 2)]),
   ((KansasCity, SaintLouis), [(Blue, 2), (Pink, 2)]),
   ((KansasCity, OklahomaCity), [(Wild, 2), (Wild, 2)]),
   ((KansasCity, Omaha), [(Wild, 1), (Wild, 1)]),
   ((LasVegas, LosAngeles), [(Wild, 2)]),
   ((LasVegas, SaltLakeCity), [(Orange, 3)]),
   ((LittleRock, Nashville), [(White, 3)]),
   ((LittleRock, NewOrleans), [(Wild, 3)]),
   ((LittleRock, OklahomaCity), [(Wild, 2)]),
   ((LittleRock, SaintLouis), [(Wild, 2)]),
   ((LosAngeles, Phoenix), [(Wild, 3)]),
   ((LosAngeles, SanFrancisco), [(Pink, 3), (Yellow, 3)]),
   ((Miami, NewOrleans), [(Red, 6)]),
   ((Montreal, NewYork), [(Blue, 3)]),
   ((Montreal, SaultStMarie), [(Black, 5)]),
   ((Montreal, Toronto), [(Wild, 3)]),
   ((Nashville, Pittsburgh), [(Yellow, 4)]),
   ((Nashville, Raleigh), [(Black, 3)]),
   ((Nashville, SaintLouis), [(Wild, 2)]),
   ((NewYork, Pittsburgh), [(Green, 2), (White, 2)]),
   ((NewYork, Washington), [(Black, 2), (Orange, 2)]),
   ((OklahomaCity, SantaFe), [(Blue, 3)]),
   ((Phoenix, SantaFe), [(Wild, 3)]),
   ((Pittsburgh, Raleigh), [(Wild, 2)]),
   ((Pittsburgh, SaintLouis), [(Green, 5)]),
   ((Pittsburgh, Toronto), [(Wild, 2)]),
   ((Pittsburgh, Washington), [(Wild, 2)]),
   ((Portland, SaltLakeCity), [(Blue, 6)]),
   ((Portland, SanFrancisco), [(Green, 5), (Pink, 5)]),
   ((Raleigh, Washington), [(Wild, 2), (Wild, 2)]),
   ((SaltLakeCity, SanFrancisco), [(Orange, 5), (White, 5)]),
   ((SaultStMarie, Toronto), [(Wild, 2)]),
   ((SaultStMarie, Winnipeg), [(Wild, 6)]),
   ((Seattle, Portland), [(Wild, 1), (Wild, 1)]),
   ((Seattle, Vancouver), [(Wild, 1), (Wild, 1)])]

end

/-- Look up the catalog entry for a directed city pair; the `BTreeMap` of
the source holds both orientations of every pair, bound to the same
segments, so the lookup accepts either orientation and returns the entry in
catalog orientation. -/
def find_city_route_entry (p : CityToCity) : Option (CityToCity × List (TrainColor × Nat)) :=
  us_map_entries.find? (fun e => decide (e.1 = p ∨ (e.1.2, e.1.1) = p))

/-- The mutable per-game map state: the flag set by `Map::new`, and the
claimer cell of every segment.  `claimers` is indexed by the *catalog*
orientation of the pair and the parallel route index; both directed
`BTreeMap` entries of the source alias these cells through `Arc`. -/
structure GameMap where
  parallel_routes_allowed : Bool
  claimers : CityToCity → Nat → Option Nat

/-- `ClaimedRoute` of `map.rs`. -/
structure ClaimedRoute where
  route : CityToCity
  parallel_route_index : Nat
  length : Nat
deriving DecidableEq, Repr

/-- Errors of `Map::can_route_be_claimed_by_player`, one constructor per
`Err(format!(...))` site (messages carried as data, formatting elided). -/
inductive ClaimError where
  /-- "No routes exist between {start} and {end}." -/
  | noRoutesExist (start finish : City)
  /-- "The selected route ({i}) between {start} and {end} does not exist." -/
  | selectedRouteDoesNotExist (i : Nat) (start finish : City)
  /-- "Cannot claim more than one route between {start} and {end}." -/
  | cannotClaimMoreThanOne (start finish : City)
  /-- "Another route is already claimed by someone else between {start} and {end}." -/
  | anotherRouteAlreadyClaimed (start finish : City)
  /-- "A route between {start} and {end} needs {n} cards, but {m} were provided." -/
  | wrongNumCards (start finish : City) (needed provided : Nat)
  /-- "The selected route between {start} and {end} is already claimed." -/
  | alreadyClaimed (start finish : City)
  /-- "Cannot claim a route with {c1} and {c2} cards." -/
  | mixedColors (c1 c2 : TrainColor)
  /-- "Cannot claim a route of color {c1} with {c2} cards." -/
  | wrongColor (routeColor cardsColor : TrainColor)
deriving DecidableEq, Repr

/-- The common-color loop of `Map::can_route_be_claimed_by_player`: ignoring
wild cards, all cards must share one real color; all-wild hands have common
color `Wild`.  `acc` starts as `Wild`. -/
def common_color_loop : TrainColor → List TrainColor → Except ClaimError TrainColor
  | acc, [] => Except.ok acc
  | acc, card :: rest =>
    if card.is_wild then common_color_loop acc rest
    else if acc.is_wild then common_color_loop card rest
    else if acc ≠ card then Except.error (ClaimError.mixedColors acc card)
    else common_color_loop acc rest

/-- The `num_parallel_routes > 1` block of
`Map::can_route_be_claimed_by_player`: reject when the *other* parallel
segment of the pair is claimed by the requesting player, or is claimed by
anyone while parallel routes are disallowed. -/
def GameMap.parallel_other_check (m : GameMap) (key route : CityToCity)
    (parallel_route_index num_parallel_routes : Nat) (player_id : Nat) : Option ClaimError :=
  if 1 < num_parallel_routes then
    match m.claimers key ((parallel_route_index + 1) % num_parallel_routes) with
    | some claimer =>
      if claimer = player_id then
        some (ClaimError.cannotClaimMoreThanOne route.1 route.2)
      else if !m.parallel_routes_allowed then
        some (ClaimError.anotherRouteAlreadyClaimed route.1 route.2)
      else none
    | none => none
  else none

/-- The final color validation of `Map::can_route_be_claimed_by_player`:
a real common color must match a real route color. -/
def route_color_check (train_color common_color : TrainColor) : Bool :=
  common_color.is_not_wild && train_color.is_not_wild && decide (train_color ≠ common_color)

/-- `Map::can_route_be_claimed_by_player`: all validations, in source order.
On success returns the catalog key of the pair together with the selected
segment's color and length (the source returns `&mut Route`). -/
def GameMap.can_route_be_claimed_by_player (m : GameMap) (route : CityToCity)
    (parallel_route_index : Nat) (cards : List TrainColor) (player_id : Nat) :
    Except ClaimError (CityToCity × TrainColor × Nat) :=
  match find_city_route_entry route with
  | none => Except.error (ClaimError.noRoutesExist route.1 route.2)
  | some (key, parallel_routes) =>
    if parallel_routes.length ≤ parallel_route_index then
      Except.error (ClaimError.selectedRouteDoesNotExist parallel_route_index route.1 route.2)
    else
      match m.parallel_other_check key route parallel_route_index parallel_routes.length player_id with
      | some e => Except.error e
      | none =>
        match parallel_routes[parallel_route_index]? with
        | none => Except.error
            (ClaimError.selectedRouteDoesNotExist parallel_route_index route.1 route.2)
        | some (train_color, length) =>
          if length ≠ cards.length then
            Except.error (ClaimError.wrongNumCards route.1 route.2 length cards.length)
          else if (m.claimers key parallel_route_index).isSome then
            Except.error (ClaimError.alreadyClaimed route.1 route.2)
          else
            match common_color_loop TrainColor.Wild cards with
            | Except.error e => Except.error e
            | Except.ok common_color =>
              if route_color_check train_color common_color then
                Except.error (ClaimError.wrongColor train_color common_color)
              else Except.ok (key, train_color, length)

/-- `Map::claim_route_for_player`: validate, then set the claimer cell of
the selected segment (observable through both directed keys). -/
def GameMap.claim_route_for_player (m : GameMap) (route : CityToCity)
    (parallel_route_index : Nat) (cards : List TrainColor) (player_id : Nat) :
    Except ClaimError ClaimedRoute × GameMap :=
  match m.can_route_be_claimed_by_player route parallel_route_index cards player_id with
  | Except.error e => (Except.error e, m)
  | Except.ok (key, _, length) =>
    (Except.ok ⟨route, parallel_route_index, length⟩,
     { m with
       claimers := fun p j =>
         if p = key ∧ j = parallel_route_index then some player_id else m.claimers p j })

/-- `Map::new`: requires 2 to 5 players and sets `parallel_routes_allowed`
iff there are more than three; a fresh map has no claimed segment.  The
source returns `Err("Cannot create a game with {} players: ...")` on a bad
count, modelled as `none`. -/
def GameMap.new (num_players : Nat) : Option GameMap :=
  if num_players < 2 ∨ 5 < num_players then none
  else some { parallel_routes_allowed := decide (3 < num_players), claimers := fun _ _ => none }

/-- The claimer of a segment as observed through a *directed* pair, i.e.
what `claimer()` on `all_parallel_routes[&(a,b)][i]` returns. -/
def GameMap.claimer_via (m : GameMap) (p : CityToCity) (i : Nat) : Option Nat :=
  match find_city_route_entry p with
  | none => none
  | some (key, _) => m.claimers key i

theorem find?_congr {α : Type} (l : List α) (p q : α → Bool) (h : ∀ a, p a = q a) :
    l.find? p = l.find? q := by
  induction l with
  | nil => rfl
  | cons a rest ih =>
    rw [List.find?, List.find?, h a]
    cases q a
    · simpa using ih
    · rfl

/-- Both orientations of a pair find the same catalog entry. -/
theorem find_city_route_entry_symm (a b : City) :
    find_city_route_entry (a, b) = find_city_route_entry (b, a) := by
  unfold find_city_route_entry
  apply find?_congr
  intro e
  apply decide_eq_decide.mpr
  rcases e with ⟨⟨x, y⟩, rs⟩
  simp only [Prod.mk.injEq]
  tauto

theorem can_route_ok_inv (m : GameMap) (route : CityToCity) (i : Nat)
    (cards : List TrainColor) (pid : Nat) (key : CityToCity) (color : TrainColor) (len : Nat)
    (h : m.can_route_be_claimed_by_player route i cards pid = Except.ok (key, color, len)) :
    ∃ segs, find_city_route_entry route = some (key, segs) ∧ i < segs.length ∧
      segs[i]? = some (color, len) ∧ m.claimers key i = none ∧ cards.length = len := by
  unfold GameMap.can_route_be_claimed_by_player at h
  rcases hfind : find_city_route_entry route with _ | ⟨key2, segs⟩
  all_goals rw [hfind] at h
  · simp at h
  · simp only [] at h
    by_cases hlen : segs.length ≤ i
    · rw [if_pos hlen] at h
      simp at h
    · rw [if_neg hlen] at h
      rcases hco : m.parallel_other_check key2 route i segs.length pid with _ | e
      all_goals rw [hco] at h
      all_goals simp only [] at h
      · rcases hseg : segs[i]? with _ | ⟨color2, len2⟩
        all_goals rw [hseg] at h
        all_goals simp only [] at h
        · simp at h
        · by_cases hcl : len2 ≠ cards.length
          · rw [if_pos hcl] at h
            simp at h
          · rw [if_neg hcl] at h
            by_cases hclaimed : (m.claimers key2 i).isSome
            · rw [if_pos hclaimed] at h
              simp at h
            · rw [if_neg hclaimed] at h
              rcases hccl : common_color_loop TrainColor.Wild cards with e2 | cc
              all_goals rw [hccl] at h
              all_goals simp only [] at h
              · simp at h
              · by_cases hrcc : route_color_check color2 cc
                · rw [if_pos hrcc] at h
                  simp at h
                · rw [if_neg hrcc] at h
                  simp only [Except.ok.injEq, Prod.mk.injEq] at h
                  obtain ⟨rfl, rfl, rfl⟩ := h
                  refine ⟨segs, by simp [hfind], by omega, hseg, ?_, by omega⟩
                  exact Option.not_isSome_iff_eq_none.mp hclaimed
      · simp at h

theorem claim_route_ok_inv (m : GameMap) (route : CityToCity) (i : Nat)
    (cards : List TrainColor) (pid : Nat) (r : ClaimedRoute) (m' : GameMap)
    (h : m.claim_route_for_player route i cards pid = (Except.ok r, m')) :
    ∃ key segs color len,
      find_city_route_entry route = some (key, segs) ∧ i < segs.length ∧
      segs[i]? = some (color, len) ∧ m.claimers key i = none ∧ cards.length = len ∧
      r = ⟨route, i, len⟩ ∧
      m'.parallel_routes_allowed = m.parallel_routes_allowed ∧
      (∀ p j, m'.claimers p j
        = if p = key ∧ j = i then some pid else m.claimers p j) := by
  unfold GameMap.claim_route_for_player at h
  rcases hcan : m.can_route_be_claimed_by_player route i cards pid with e | ⟨key, color, len⟩
  all_goals rw [hcan] at h
  · simp at h
  · simp only [Prod.mk.injEq, Except.ok.injEq] at h
    obtain ⟨rfl, rfl⟩ := h
    obtain ⟨segs, hfind, hlt, hseg, hnone, hcards⟩ :=
      can_route_ok_inv m route i cards pid key color len hcan
    exact ⟨key, segs, color, len, hfind, hlt, hseg, hnone, hcards, rfl, rfl,
      fun p j => rfl⟩

theorem mod_succ_ne_self (i len : Nat) (h1 : 1 < len) (h2 : i < len) :
    (i + 1) % len ≠ i := by
  by_cases hlt : i + 1 < len
  · rw [Nat.mod_eq_of_lt hlt]
    omega
  · have : i + 1 = len := by omega
    rw [this, Nat.mod_self]
    omega

/-- **C6.** For every map state, adjacent city pair `(a, b)`, parallel index
`i` and player `pid`: after a successful claim of segment `i` addressed via
`(a, b)`, the claimer of segment `i` addressed via the mirror key `(b, a)`
equals `pid`; consequently any subsequent claim of that segment via
`(b, a)`, by any player with any cards, fails and leaves the map unchanged --
and it fails with precisely the already-claimed error whenever the hand has
the right number of cards and the parallel-ownership rule does not reject
first (the source checks parallel ownership and the card count *before* the
already-claimed rule). -/
theorem C6_claim_observable_in_mirror_direction
    (m : GameMap) (a b : City) (i : Nat) (cards : List TrainColor)
    (pid : Nat) (r : ClaimedRoute) (m' : GameMap)
    (h : m.claim_route_for_player (a, b) i cards pid = (Except.ok r, m')) :
    m'.claimer_via (b, a) i = some pid ∧
    (∀ pid2 cards2, ∃ e,
      m'.claim_route_for_player (b, a) i cards2 pid2 = (Except.error e, m')) ∧
    (∀ pid2 cards2 key segs color len,
      find_city_route_entry (a, b) = some (key, segs) →
      segs[i]? = some (color, len) →
      cards2.length = len →
      (∀ q, m.claimers key ((i + 1) % segs.length) = some q →
        q ≠ pid2 ∧ m.parallel_routes_allowed = true) →
      m'.claim_route_for_player (b, a) i cards2 pid2
        = (Except.error (ClaimError.alreadyClaimed b a), m')) := by
  obtain ⟨key, segs, color, len, hfind, hlt, hseg, hnone, hcards, hr, hal, hcl⟩ :=
    claim_route_ok_inv m (a, b) i cards pid r m' h
  have hfind_ba : find_city_route_entry (b, a) = some (key, segs) := by
    rw [← find_city_route_entry_symm a b]
    exact hfind
  have hclm : m'.claimers key i = some pid := by
    rw [hcl]
    simp
  refine ⟨?_, ?_, ?_⟩
  · unfold GameMap.claimer_via
    rw [hfind_ba]
    exact hclm
  · intro pid2 cards2
    rcases hres : m'.claim_route_for_player (b, a) i cards2 pid2 with ⟨res, m2⟩
    rcases res with e | r2
    · refine ⟨e, ?_⟩
      have hm2 : m2 = m' := by
        unfold GameMap.claim_route_for_player at hres
        rcases hcan2 : m'.can_route_be_claimed_by_player (b, a) i cards2 pid2 with e2 | ok2
        all_goals rw [hcan2] at hres
        · simp only [Prod.mk.injEq] at hres
          exact hres.2.symm
        · rcases ok2 with ⟨k3, c3, l3⟩
          simp at hres
      rw [hm2]
    · exfalso
      obtain ⟨key2, segs2, color2, len2, hfind2, hlt2, hseg2, hnone2, -⟩ :=
        claim_route_ok_inv m' (b, a) i cards2 pid2 r2 m2 hres
      rw [hfind_ba] at hfind2
      simp only [Option.some_inj, Prod.mk.injEq] at hfind2
      rw [← hfind2.1] at hnone2
      rw [hclm] at hnone2
      simp at hnone2
  · intro pid2 cards2 key2 segs2 color2 len2 hfind2 hseg2 hlen2 hother
    rw [hfind] at hfind2
    simp only [Option.some_inj, Prod.mk.injEq] at hfind2
    obtain ⟨h21, h22⟩ := hfind2
    subst h21
    subst h22
    have hcan : m'.can_route_be_claimed_by_player (b, a) i cards2 pid2
        = Except.error (ClaimError.alreadyClaimed b a) := by
      unfold GameMap.can_route_be_claimed_by_player
      rw [hfind_ba]
      simp only []
      rw [if_neg (by omega)]
      have hoc : m'.parallel_other_check key (b, a) i segs.length pid2 = none := by
        unfold GameMap.parallel_other_check
        by_cases h1 : 1 < segs.length
        · rw [if_pos h1]
          have hmo : m'.claimers key ((i + 1) % segs.length)
              = m.claimers key ((i + 1) % segs.length) := by
            rw [hcl]
            rw [if_neg]
            simp only [not_and]
            intro _
            exact mod_succ_ne_self i segs.length h1 (by omega)
          rw [hmo]
          rcases hq : m.claimers key ((i + 1) % segs.length) with _ | q
          · rfl
          · obtain ⟨hq1, hq2⟩ := hother q hq
            simp only []
            rw [if_neg hq1]
            have hal2 : m'.parallel_routes_allowed = true := by rw [hal, hq2]
            rw [hal2]
            simp
        · rw [if_neg h1]
      rw [hoc]
      simp only []
      rw [hseg2]
      simp only []
      rw [if_neg (by omega)]
      rw [hclm]
      simp
    unfold GameMap.claim_route_for_player
    rw [hcan]

/-- **C5.** For every allowed player count `n ∈ [2,5]` (`Map::new` succeeds
with `parallel_routes_allowed` iff `n > 3`), every claim state over the map,
and every city pair with two parallel segments: (1) a claim by player `pid`
on one segment fails with the "cannot claim more than one" error whenever
the other segment is already claimed by `pid`, for *every* such `n`;
(2) if the other segment is claimed by a different player and `n ≤ 3`
(parallel routes disallowed), the claim fails with the "already claimed by
someone else" error; and (3) if the other segment is claimed by a different
player but `n > 3`, a claim that passes the remaining validations (segment
unclaimed, correct card count and colors) succeeds. -/
theorem C5_parallel_route_exclusivity
    (n : Nat) (hn2 : 2 ≤ n) (hn5 : n ≤ 5)
    (cl : CityToCity → Nat → Option Nat)
    (p : CityToCity) (key : CityToCity) (segs : List (TrainColor × Nat))
    (hfind : find_city_route_entry p = some (key, segs)) (h2 : segs.length = 2)
    (i : Nat) (hi : i < 2) (pid : Nat) :
    GameMap.new n = some { parallel_routes_allowed := decide (3 < n),
                           claimers := fun _ _ => none } ∧
    ((cl key ((i + 1) % 2) = some pid → ∀ cards,
       GameMap.claim_route_for_player
           { parallel_routes_allowed := decide (3 < n), claimers := cl } p i cards pid
         = (Except.error (ClaimError.cannotClaimMoreThanOne p.1 p.2),
            { parallel_routes_allowed := decide (3 < n), claimers := cl })) ∧
     (∀ q, q ≠ pid → cl key ((i + 1) % 2) = some q → n ≤ 3 → ∀ cards,
       GameMap.claim_route_for_player
           { parallel_routes_allowed := decide (3 < n), claimers := cl } p i cards pid
         = (Except.error (ClaimError.anotherRouteAlreadyClaimed p.1 p.2),
            { parallel_routes_allowed := decide (3 < n), claimers := cl })) ∧
     (∀ q, q ≠ pid → cl key ((i + 1) % 2) = some q → 3 < n →
       ∀ cards color len cc,
         segs[i]? = some (color, len) →
         cards.length = len →
         cl key i = none →
         common_color_loop TrainColor.Wild cards = Except.ok cc →
         route_color_check color cc = false →
         (GameMap.claim_route_for_player
             { parallel_routes_allowed := decide (3 < n), claimers := cl } p i cards pid).1
           = Except.ok ⟨p, i, len⟩)) := by
  constructor
  · unfold GameMap.new
    rw [if_neg (by omega)]
  refine ⟨?_, ?_, ?_⟩
  · intro hsame cards
    have hcan : GameMap.can_route_be_claimed_by_player
        { parallel_routes_allowed := decide (3 < n), claimers := cl } p i cards pid
        = Except.error (ClaimError.cannotClaimMoreThanOne p.1 p.2) := by
      unfold GameMap.can_route_be_claimed_by_player
      rw [hfind]
      simp only []
      rw [if_neg (by omega)]
      have hoc : GameMap.parallel_other_check
          { parallel_routes_allowed := decide (3 < n), claimers := cl }
          key p i segs.length pid
          = some (ClaimError.cannotClaimMoreThanOne p.1 p.2) := by
        unfold GameMap.parallel_other_check
        rw [if_pos (by omega)]
        simp only [h2]
        rw [hsame]
        simp
      rw [hoc]
    unfold GameMap.claim_route_for_player
    rw [hcan]
  · intro q hq hcl hn3 cards
    have hcan : GameMap.can_route_be_claimed_by_player
        { parallel_routes_allowed := decide (3 < n), claimers := cl } p i cards pid
        = Except.error (ClaimError.anotherRouteAlreadyClaimed p.1 p.2) := by
      unfold GameMap.can_route_be_claimed_by_player
      rw [hfind]
      simp only []
      rw [if_neg (by omega)]
      have hoc : GameMap.parallel_other_check
          { parallel_routes_allowed := decide (3 < n), claimers := cl }
          key p i segs.length pid
          = some (ClaimError.anotherRouteAlreadyClaimed p.1 p.2) := by
        unfold GameMap.parallel_other_check
        rw [if_pos (by omega)]
        simp only [h2]
        rw [hcl]
        simp only []
        rw [if_neg hq]
        have : (decide (3 < n)) = false := by
          simp only [decide_eq_false_iff_not]
          omega
        rw [this]
        simp
      rw [hoc]
    unfold GameMap.claim_route_for_player
    rw [hcan]
  · intro q hq hcl hn3 cards color len cc hseg hcards hnone hccl hrcc
    have hcan : GameMap.can_route_be_claimed_by_player
        { parallel_routes_allowed := decide (3 < n), claimers := cl } p i cards pid
        = Except.ok (key, color, len) := by
      unfold GameMap.can_route_be_claimed_by_player
      rw [hfind]
      simp only []
      rw [if_neg (by omega)]
      have hoc : GameMap.parallel_other_check
          { parallel_routes_allowed := decide (3 < n), claimers := cl }
          key p i segs.length pid = none := by
        unfold GameMap.parallel_other_check
        rw [if_pos (by omega)]
        simp only [h2]
        rw [hcl]
        simp only []
        rw [if_neg hq]
        have : (decide (3 < n)) = true := by
          simp only [decide_eq_true_eq]
          omega
        rw [this]
        simp
      rw [hoc]
      simp only []
      rw [hseg]
      simp only []
      rw [if_neg (by omega)]
      simp only [hnone, Option.isSome_none]
      rw [if_neg (by simp)]
      rw [hccl]
      simp only []
      rw [hrcc]
      simp
    unfold GameMap.claim_route_for_player
    rw [hcan]

/-! ## The longest-route computation (`map.rs`)

`Map::get_longest_route` builds an adjacency array over the claimed routes
(one entry per direction per claimed segment), then runs, from every city
appearing in the claims, a depth-first search for the longest trail: edges
are marked visited as *directed pairs of cities*, both orientations at once,
and the per-branch visited set is cloned (`routes_visited.clone()`).  The
source fans the per-start searches out to a thread pool and reduces with
`max`; the fold below computes the same maximum (neither the HashSet
iteration order nor duplicated endpoint cities can change a maximum). -/

/-- The `all_routes` adjacency array of `Map::get_longest_route`: each
claimed route pushes `(end, length)` onto `all_routes[start]` and
`(start, length)` onto `all_routes[end]`. -/
def build_all_routes (claimed_routes : List ClaimedRoute) : City → List (City × Nat) :=
  claimed_routes.foldl
    (fun adj cr => fun c =>
      let base := adj c
      let base := if c = cr.route.1 then base ++ [(cr.route.2, cr.length)] else base
      if c = cr.route.2 then base ++ [(cr.route.1, cr.length)] else base)
    (fun _ => [])

/-- The endpoint cities inserted into `cities_to_visit` (duplicates are
harmless under a `max` reduction). -/
def cities_of (claimed_routes : List ClaimedRoute) : List City :=
  claimed_routes.flatMap (fun cr => [cr.route.1, cr.route.2])

/-- The loop body of `Map::get_longest_route_from_city`, processing the
remaining adjacency entries of `start` one by one while keeping the running
maximum `acc` (`longest_route_from_city` in the source).  The recursive call
on an unvisited edge is the inlined `Map::get_longest_route_from_city` for
the neighbor (see `get_longest_route_from_city` below). -/
def dfs_go (adj : City → List (City × Nat)) :
    City → Finset (City × City) → Nat → Nat → List (City × Nat) → Nat
  | _, _, _, acc, [] => acc
  | start, visited, current, acc, e :: rest =>
    if h : (start, e.1) ∈ visited then dfs_go adj start visited current acc rest
    else
      let visited2 := insert (start, e.1) (insert (e.1, start) visited)
      let sub := dfs_go adj e.1 visited2 (current + e.2) (current + e.2) (adj e.1)
      dfs_go adj start visited current (max acc sub) rest
termination_by _ visited _ _ l => ((Finset.univ \ visited).card, l.length)
decreasing_by
  · apply Prod.Lex.right
    simp
  · apply Prod.Lex.left
    apply Finset.card_lt_card
    constructor
    · intro q hq
      simp only [Finset.mem_sdiff] at hq ⊢
      refine ⟨hq.1, fun hmem => hq.2 ?_⟩
      exact Finset.mem_insert_of_mem (Finset.mem_insert_of_mem hmem)
    · intro hsub
      have h1 : (start, e.1) ∈ Finset.univ \ visited := by
        simp [h]
      have h2 := hsub h1
      simp at h2
  · apply Prod.Lex.right
    simp

/-- `Map::get_longest_route_from_city`. -/
def get_longest_route_from_city (adj : City → List (City × Nat))
    (start : City) (visited : Finset (City × City)) (current : Nat) : Nat :=
  dfs_go adj start visited current current (adj start)

/-- `Map::get_longest_route`. -/
def get_longest_route (claimed_routes : List ClaimedRoute) : Nat :=
  let all_routes := build_all_routes claimed_routes
  (cities_of claimed_routes).foldl
    (fun longest city => max longest (get_longest_route_from_city all_routes city ∅ 0)) 0

/-- The fold step of `build_all_routes` (one claimed route's two pushes). -/
def build_step (adj : City → List (City × Nat)) (cr : ClaimedRoute) :
    City → List (City × Nat) := fun c =>
  let base := adj c
  let base := if c = cr.route.1 then base ++ [(cr.route.2, cr.length)] else base
  if c = cr.route.2 then base ++ [(cr.route.1, cr.length)] else base

theorem build_all_routes_eq_foldl (claimed_routes : List ClaimedRoute) :
    build_all_routes claimed_routes = claimed_routes.foldl build_step (fun _ => []) := rfl

/-- Total weight of the adjacency entries of `a` that point at `b`. -/
def dir_weight (adj : City → List (City × Nat)) (a b : City) : Nat :=
  (((adj a).filter (fun e => decide (e.1 = b))).map Prod.snd).sum

/-- The weight the routes themselves contribute from `a` towards `b`. -/
def routes_dir_weight (routes : List ClaimedRoute) (a b : City) : Nat :=
  (routes.map (fun r =>
    (if r.route.1 = a ∧ r.route.2 = b then r.length else 0)
      + (if r.route.2 = a ∧ r.route.1 = b then r.length else 0))).sum

/-- Sum of weights of entries targeting `b`. -/
def tgt_sum (b : City) (l : List (City × Nat)) : Nat :=
  ((l.filter (fun e => decide (e.1 = b))).map Prod.snd).sum

theorem tgt_sum_append (b : City) (l l' : List (City × Nat)) :
    tgt_sum b (l ++ l') = tgt_sum b l + tgt_sum b l' := by
  unfold tgt_sum
  rw [List.filter_append, List.map_append, List.sum_append]

theorem tgt_sum_single (b v : City) (L : Nat) :
    tgt_sum b [(v, L)] = if v = b then L else 0 := by
  unfold tgt_sum
  by_cases h : v = b <;> simp [h, List.filter_cons]

theorem dir_weight_build_step (adj : City → List (City × Nat)) (r : ClaimedRoute)
    (a b : City) :
    dir_weight (build_step adj r) a b
      = dir_weight adj a b
        + ((if r.route.1 = a ∧ r.route.2 = b then r.length else 0)
          + (if r.route.2 = a ∧ r.route.1 = b then r.length else 0)) := by
  obtain ⟨⟨u, v⟩, i, L⟩ := r
  show tgt_sum b (build_step adj ⟨(u, v), i, L⟩ a) = tgt_sum b (adj a) + _
  unfold build_step
  simp only []
  by_cases h1 : a = u
  · by_cases h2 : a = v
    · rw [if_pos h1, if_pos h2, tgt_sum_append, tgt_sum_append, tgt_sum_single,
        tgt_sum_single, ← h1, ← h2]
      by_cases hb : a = b <;> simp [hb] <;> omega
    · rw [if_neg h2, if_pos h1, tgt_sum_append, tgt_sum_single]
      have hu : u = a := h1.symm
      have hv : ¬v = a := fun hc => h2 hc.symm
      simp [hu, hv]
  · by_cases h2 : a = v
    · rw [if_pos h2, if_neg h1, tgt_sum_append, tgt_sum_single]
      have hv : v = a := h2.symm
      have hu : ¬u = a := fun hc => h1 hc.symm
      simp [hu, hv]
    · rw [if_neg h2, if_neg h1]
      have hu : ¬u = a := fun hc => h1 hc.symm
      have hv : ¬v = a := fun hc => h2 hc.symm
      simp [hu, hv]

theorem dir_weight_buildF (routes : List ClaimedRoute) (adj : City → List (City × Nat))
    (a b : City) :
    dir_weight (routes.foldl build_step adj) a b
      = dir_weight adj a b + routes_dir_weight routes a b := by
  induction routes generalizing adj with
  | nil => simp [routes_dir_weight]
  | cons r rest ih =>
    rw [List.foldl_cons, ih, dir_weight_build_step]
    unfold routes_dir_weight
    simp only [List.map_cons, List.sum_cons]
    omega

theorem routes_dir_weight_symm (routes : List ClaimedRoute) (a b : City) :
    routes_dir_weight routes a b = routes_dir_weight routes b a := by
  unfold routes_dir_weight
  congr 1
  apply List.map_congr_left
  intro r _
  have e1 : (r.route.1 = a ∧ r.route.2 = b) ↔ (r.route.2 = b ∧ r.route.1 = a) := and_comm
  have e2 : (r.route.2 = a ∧ r.route.1 = b) ↔ (r.route.1 = b ∧ r.route.2 = a) := and_comm
  rw [if_congr e1 rfl rfl, if_congr e2 rfl rfl, Nat.add_comm]

/-- The adjacency built from the claimed routes is mirror-symmetric in
weight. -/
theorem dir_weight_build_symm (routes : List ClaimedRoute) (a b : City) :
    dir_weight (build_all_routes routes) a b = dir_weight (build_all_routes routes) b a := by
  rw [build_all_routes_eq_foldl, dir_weight_buildF, dir_weight_buildF,
    routes_dir_weight_symm routes a b]
  simp [dir_weight]

/-- Routes between distinct cities build an adjacency without self-targets. -/
theorem build_no_self (routes : List ClaimedRoute)
    (hns : ∀ r ∈ routes, r.route.1 ≠ r.route.2) :
    ∀ c, ∀ x ∈ build_all_routes routes c, x.1 ≠ c := by
  rw [build_all_routes_eq_foldl]
  have key : ∀ (rs : List ClaimedRoute), (∀ r ∈ rs, r.route.1 ≠ r.route.2) →
      ∀ (adj : City → List (City × Nat)), (∀ c, ∀ x ∈ adj c, x.1 ≠ c) →
      ∀ c, ∀ x ∈ rs.foldl build_step adj c, x.1 ≠ c := by
    intro rs
    induction rs with
    | nil =>
      intro _ adj hadj
      simpa using hadj
    | cons r rest ih =>
      intro hrs adj hadj
      rw [List.foldl_cons]
      apply ih (fun r2 hr2 => hrs r2 (List.mem_cons_of_mem _ hr2))
      intro c x hx
      simp only [build_step] at hx
      have hr : r.route.1 ≠ r.route.2 := hrs r (List.mem_cons_self _ _)
      by_cases h1 : c = r.route.1
      · by_cases h2 : c = r.route.2
        · exact absurd (h1.symm.trans h2) hr
        · rw [if_pos h1, if_neg h2] at hx
          rcases List.mem_append.mp hx with hx | hx
          · exact hadj c x hx
          · simp at hx
            rw [hx]
            exact fun hc => h2 hc.symm
      · by_cases h2 : c = r.route.2
        · rw [if_neg h1, if_pos h2] at hx
          rcases List.mem_append.mp hx with hx | hx
          · exact hadj c x hx
          · simp at hx
            rw [hx]
            exact fun hc => h1 hc.symm
        · rw [if_neg h1, if_neg h2] at hx
          exact hadj c x hx
  exact key routes hns (fun _ => []) (by simp)

/-- An adjacency entry's weight is bounded by the directed weight towards
its target. -/
theorem mem_le_dir_weight (adj : City → List (City × Nat)) (a : City)
    (x : City × Nat) (hx : x ∈ adj a) : x.2 ≤ dir_weight adj a x.1 := by
  unfold dir_weight
  apply List.single_le_sum (by simp)
  apply List.mem_map.mpr
  exact ⟨x, List.mem_filter.mpr ⟨hx, by simp⟩, rfl⟩

/-- Sum, over unvisited directed city pairs, of the directed adjacency
weight: the budget the depth-first search can still spend. -/
def potential (adj : City → List (City × Nat)) (visited : Finset (City × City)) : Nat :=
  (Finset.univ \ visited).sum (fun q => dir_weight adj q.1 q.2)

/-- The visited set is mirror-closed (always true of `dfs_go`'s bookkeeping). -/
def SymV (v : Finset (City × City)) : Prop :=
  ∀ x y : City, (x, y) ∈ v → (y, x) ∈ v

theorem SymV_empty : SymV ∅ := by
  intro x y h
  simp at h

theorem SymV_insert2 {v : Finset (City × City)} (hv : SymV v) (s t : City) :
    SymV (insert (s, t) (insert (t, s) v)) := by
  intro x y hxy
  simp only [Finset.mem_insert, Prod.mk.injEq] at hxy ⊢
  rcases hxy with ⟨rfl, rfl⟩ | (⟨rfl, rfl⟩ | hxy)
  · right; left; exact ⟨rfl, rfl⟩
  · left; exact ⟨rfl, rfl⟩
  · right; right; exact hv x y hxy

theorem potential_drop (adj : City → List (City × Nat)) {v : Finset (City × City)}
    (s t : City) (hst : s ≠ t) (hsv : (s, t) ∉ v) (htv : (t, s) ∉ v) :
    potential adj (insert (s, t) (insert (t, s) v)) + dir_weight adj s t + dir_weight adj t s
      = potential adj v := by
  unfold potential
  have hne : (s, t) ≠ (t, s) := fun hc => hst (congrArg Prod.fst hc)
  have hset : Finset.univ \ v
      = insert (s, t) (insert (t, s) (Finset.univ \ insert (s, t) (insert (t, s) v))) := by
    ext q
    simp only [Finset.mem_sdiff, Finset.mem_univ, true_and, Finset.mem_insert]
    constructor
    · intro hq
      by_cases h1 : q = (s, t)
      · exact Or.inl h1
      · by_cases h2 : q = (t, s)
        · exact Or.inr (Or.inl h2)
        · exact Or.inr (Or.inr (not_or.mpr ⟨h1, not_or.mpr ⟨h2, hq⟩⟩))
    · intro hq
      rcases hq with rfl | (rfl | hq)
      · exact hsv
      · exact htv
      · exact fun hm => hq (Or.inr (Or.inr hm))
  have hn1 : (s, t) ∉ insert (t, s) (Finset.univ \ insert (s, t) (insert (t, s) v)) := by
    simp [hne]
  have hn2 : (t, s) ∉ Finset.univ \ insert (s, t) (insert (t, s) v) := by
    simp
  rw [hset, Finset.sum_insert hn1, Finset.sum_insert hn2]
  dsimp only
  omega

/-- Core bound: twice the DFS result is bounded by the larger of twice the
accumulator and twice the current path length plus the unvisited budget. -/
theorem dfs_go_bound (adj : City → List (City × Nat))
    (hm : ∀ a b, dir_weight adj a b = dir_weight adj b a)
    (hns : ∀ c, ∀ x ∈ adj c, x.1 ≠ c) :
    ∀ (start : City) (visited : Finset (City × City)) (current acc : Nat)
      (l : List (City × Nat)), SymV visited → (∀ x ∈ l, x ∈ adj start) →
      2 * dfs_go adj start visited current acc l
        ≤ max (2 * acc) (2 * current + potential adj visited) := by
  intro start visited current acc l
  induction start, visited, current, acc, l using dfs_go.induct adj with
  | case1 start visited current acc =>
    intro _ _
    rw [dfs_go]
    exact le_max_left _ _
  | case2 start visited current acc e rest h ih =>
    intro hsym hl
    rw [dfs_go, dif_pos h]
    exact ih hsym (fun x hx => hl x (List.mem_cons_of_mem _ hx))
  | case3 start visited current acc e rest h v2 sub ih1 ih2 ih3 =>
    intro hsym hl
    have hv2 : v2 = insert (start, e.1) (insert (e.1, start) visited) := rfl
    have hsub : sub = dfs_go adj e.1 v2 (current + e.2) (current + e.2) (adj e.1) := rfl
    rw [dfs_go, dif_neg h]
    show 2 * dfs_go adj start visited current (max acc sub) rest ≤ _
    have ht : e ∈ adj start := hl e (List.mem_cons_self _ _)
    have hts : e.1 ≠ start := hns start e ht
    have hst : start ≠ e.1 := fun hc => hts hc.symm
    have htv : (e.1, start) ∉ visited := fun hc => h (hsym _ _ hc)
    have hdrop := potential_drop adj start e.1 hst h htv
    have hwt : e.2 ≤ dir_weight adj start e.1 := mem_le_dir_weight adj start e ht
    have hsymv2 : SymV v2 := by
      rw [hv2]
      exact SymV_insert2 hsym start e.1
    have hsubb := ih1 hsymv2 (fun x hx => hx)
    rw [max_eq_right (Nat.le_add_right _ _), ← hsub, hv2] at hsubb
    have hsubX : 2 * sub ≤ 2 * current + potential adj visited := by
      have hm1 := hm start e.1
      omega
    have hrest := ih3 hsym (fun x hx => hl x (List.mem_cons_of_mem _ hx))
    simp only [sup_eq_max] at hrest
    rcases Nat.le_total sub acc with hle | hle
    · rw [max_eq_left hle]
      rw [max_eq_left hle] at hrest
      exact hrest
    · rw [max_eq_right hle]
      rw [max_eq_right hle] at hrest
      refine hrest.trans ?_
      apply max_le
      · exact le_trans hsubX (le_max_right _ _)
      · exact le_max_right _ _

theorem sum_tgt_sum (l : List (City × Nat)) :
    Finset.univ.sum (fun b => tgt_sum b l) = (l.map Prod.snd).sum := by
  induction l with
  | nil => simp [tgt_sum]
  | cons e rest ih =>
    have hstep : ∀ b, tgt_sum b (e :: rest) = (if e.1 = b then e.2 else 0) + tgt_sum b rest := by
      intro b
      unfold tgt_sum
      rw [List.filter_cons]
      by_cases hb : e.1 = b
      · simp [hb]
      · simp [hb]
    simp only [hstep]
    rw [Finset.sum_add_distrib, ih, Finset.sum_ite_eq]
    simp

theorem potential_univ (adj : City → List (City × Nat)) :
    potential adj ∅
      = Finset.univ.sum (fun a => ((adj a).map Prod.snd).sum) := by
  unfold potential
  rw [Finset.sdiff_empty, ← Finset.univ_product_univ, Finset.sum_product]
  apply Finset.sum_congr rfl
  intro a _
  exact sum_tgt_sum (adj a)

theorem sum_weights_buildF (routes : List ClaimedRoute) :
    ∀ adj : City → List (City × Nat),
    Finset.univ.sum (fun a => ((routes.foldl build_step adj a).map Prod.snd).sum)
      = Finset.univ.sum (fun a => ((adj a).map Prod.snd).sum)
        + 2 * (routes.map ClaimedRoute.length).sum := by
  induction routes with
  | nil =>
    intro adj
    simp
  | cons r rest ih =>
    intro adj
    rw [List.foldl_cons, ih]
    have hstep : ∀ a, (((build_step adj r) a).map Prod.snd).sum
        = ((adj a).map Prod.snd).sum
          + ((if a = r.route.1 then r.length else 0)
            + (if a = r.route.2 then r.length else 0)) := by
      intro a
      unfold build_step
      simp only []
      by_cases h1 : a = r.route.1 <;> by_cases h2 : a = r.route.2
      · rw [if_pos h1, if_pos h2, if_pos h1, if_pos h2]
        simp [List.map_append, List.sum_append]
      · rw [if_pos h1, if_neg h2, if_pos h1, if_neg h2]
        simp [List.map_append, List.sum_append]
      · rw [if_neg h1, if_pos h2, if_neg h1, if_pos h2]
        simp [List.map_append, List.sum_append]
      · rw [if_neg h1, if_neg h2, if_neg h1, if_neg h2]
        simp
    simp only [hstep]
    rw [Finset.sum_add_distrib, Finset.sum_add_distrib, Finset.sum_ite_eq',
      Finset.sum_ite_eq']
    simp only [Finset.mem_univ, if_true, List.map_cons, List.sum_cons]
    omega

/-- Twice the total claimed length is the whole DFS budget. -/
theorem potential_build_empty (routes : List ClaimedRoute) :
    potential (build_all_routes routes) ∅ = 2 * (routes.map ClaimedRoute.length).sum := by
  rw [potential_univ]
  rw [build_all_routes_eq_foldl, sum_weights_buildF]
  simp

theorem foldl_max_le {α : Type} (f : α → Nat) (B : Nat) :
    ∀ (l : List α) (acc : Nat), (∀ c ∈ l, f c ≤ B) → acc ≤ B →
      l.foldl (fun x c => max x (f c)) acc ≤ B := by
  intro l
  induction l with
  | nil =>
    intro acc _ hacc
    simpa using hacc
  | cons c rest ih =>
    intro acc hl hacc
    rw [List.foldl_cons]
    apply ih _ (fun x hx => hl x (List.mem_cons_of_mem _ hx))
    exact max_le hacc (hl c (List.mem_cons_self _ _))

theorem le_foldl_max {α : Type} (f : α → Nat) :
    ∀ (l : List α) (acc : Nat), acc ≤ l.foldl (fun x c => max x (f c)) acc := by
  intro l
  induction l with
  | nil =>
    intro acc
    simp
  | cons c rest ih =>
    intro acc
    rw [List.foldl_cons]
    exact le_trans (le_max_left _ _) (ih _)

theorem foldl_max_congr {α : Type} (f g : α → Nat) :
    ∀ (l : List α) (acc : Nat), (∀ c ∈ l, f c = g c) →
      l.foldl (fun x c => max x (f c)) acc = l.foldl (fun x c => max x (g c)) acc := by
  intro l
  induction l with
  | nil =>
    intro acc _
    rfl
  | cons c rest ih =>
    intro acc hl
    rw [List.foldl_cons, List.foldl_cons, hl c (List.mem_cons_self _ _)]
    exact ih _ (fun x hx => hl x (List.mem_cons_of_mem _ hx))

/-- Property (c): the longest route never exceeds the sum of claimed lengths. -/
theorem get_longest_route_le_sum (routes : List ClaimedRoute)
    (hns : ∀ r ∈ routes, r.route.1 ≠ r.route.2) :
    get_longest_route routes ≤ (routes.map ClaimedRoute.length).sum := by
  show (cities_of routes).foldl
      (fun longest city =>
        max longest (get_longest_route_from_city (build_all_routes routes) city ∅ 0)) 0
    ≤ (routes.map ClaimedRoute.length).sum
  apply foldl_max_le
  · intro c _
    unfold get_longest_route_from_city
    have hb := dfs_go_bound (build_all_routes routes)
      (dir_weight_build_symm routes)
      (build_no_self routes hns)
      c ∅ 0 0 (build_all_routes routes c) SymV_empty (fun x hx => hx)
    rw [potential_build_empty] at hb
    simp only [Nat.mul_zero, Nat.zero_add, Nat.zero_max] at hb
    omega
  · exact Nat.zero_le _

/-- Property (a): no claimed routes means a longest route of zero. -/
theorem get_longest_route_nil : get_longest_route [] = 0 := rfl

/-- Property (b): a single claimed route between distinct cities yields its
own length. -/
theorem get_longest_route_single (a b : City) (hab : a ≠ b) (i L : Nat) :
    get_longest_route [⟨(a, b), i, L⟩] = L := by
  set r : ClaimedRoute := ⟨(a, b), i, L⟩ with hr
  have hba : ¬b = a := fun hc => hab hc.symm
  have hadja : build_all_routes [r] a = [(b, L)] := by
    show build_step (fun _ => []) r a = [(b, L)]
    unfold build_step
    simp only [hr]
    rw [if_neg hab]
    simp
  have hadjb : build_all_routes [r] b = [(a, L)] := by
    show build_step (fun _ => []) r b = [(a, L)]
    unfold build_step
    simp only [hr]
    rw [if_neg hba]
    simp
  have hsubA : dfs_go (build_all_routes [r]) b
      (insert (a, b) (insert (b, a) ∅)) (0 + L) (0 + L) [(a, L)] = 0 + L := by
    rw [dfs_go]
    rw [dif_pos (by simp : ((b : City), ((a : City), L).1) ∈
      insert ((a : City), (b : City)) (insert ((b : City), (a : City)) ∅))]
    rw [dfs_go]
  have hfa : dfs_go (build_all_routes [r]) a ∅ 0 0 [(b, L)] = L := by
    rw [dfs_go]
    rw [dif_neg (by simp : ¬(((a : City), ((b : City), L).1) ∈ (∅ : Finset (City × City))))]
    dsimp only
    rw [hadjb, hsubA, dfs_go]
    simp
  have hsubB : dfs_go (build_all_routes [r]) a
      (insert (b, a) (insert (a, b) ∅)) (0 + L) (0 + L) [(b, L)] = 0 + L := by
    rw [dfs_go]
    rw [dif_pos (by simp : ((a : City), ((b : City), L).1) ∈
      insert ((b : City), (a : City)) (insert ((a : City), (b : City)) ∅))]
    rw [dfs_go]
  have hfb : dfs_go (build_all_routes [r]) b ∅ 0 0 [(a, L)] = L := by
    rw [dfs_go]
    rw [dif_neg (by simp : ¬(((b : City), ((a : City), L).1) ∈ (∅ : Finset (City × City))))]
    dsimp only
    rw [hadja, hsubB, dfs_go]
    simp
  show List.foldl
      (fun longest city =>
        max longest (get_longest_route_from_city (build_all_routes [r]) city ∅ 0))
      0 (cities_of [r]) = L
  have hcities : cities_of [r] = [a, b] := rfl
  rw [hcities, List.foldl_cons, List.foldl_cons, List.foldl_nil]
  unfold get_longest_route_from_city
  rw [hadja, hadjb, hfa, hfb]
  simp

/-- `c` is an endpoint of some route in `routes`. -/
def mentions (routes : List ClaimedRoute) (c : City) : Prop :=
  ∃ r ∈ routes, r.route.1 = c ∨ r.route.2 = c

theorem foldl_build_step_not_mentioned (routes : List ClaimedRoute) :
    ∀ (adj : City → List (City × Nat)) (c : City), ¬mentions routes c →
      routes.foldl build_step adj c = adj c := by
  induction routes with
  | nil =>
    intro adj c _
    rfl
  | cons r rest ih =>
    intro adj c hc
    have hc1 : ¬(c = r.route.1) := fun h => hc ⟨r, List.mem_cons_self _ _, Or.inl h.symm⟩
    have hc2 : ¬(c = r.route.2) := fun h => hc ⟨r, List.mem_cons_self _ _, Or.inr h.symm⟩
    have hrest : ¬mentions rest c := fun hm => by
      obtain ⟨r2, hr2, ho⟩ := hm
      exact hc ⟨r2, List.mem_cons_of_mem _ hr2, ho⟩
    rw [List.foldl_cons, ih _ c hrest]
    unfold build_step
    simp only []
    rw [if_neg hc1, if_neg hc2]

theorem build_append_not_mentioned (r1 r2 : List ClaimedRoute) (c : City)
    (hc : ¬mentions r2 c) :
    build_all_routes (r1 ++ r2) c = build_all_routes r1 c := by
  rw [build_all_routes_eq_foldl, build_all_routes_eq_foldl, List.foldl_append]
  exact foldl_build_step_not_mentioned r2 _ c hc

theorem mem_build_step (adj : City → List (City × Nat)) (r : ClaimedRoute) (c : City)
    (x : City × Nat) (hx : x ∈ build_step adj r c) :
    x ∈ adj c ∨ r.route.1 = x.1 ∨ r.route.2 = x.1 := by
  unfold build_step at hx
  simp only [] at hx
  by_cases h2 : c = r.route.2
  · rw [if_pos h2] at hx
    rcases List.mem_append.mp hx with hx | hx
    · by_cases h1 : c = r.route.1
      · rw [if_pos h1] at hx
        rcases List.mem_append.mp hx with hx | hx
        · exact Or.inl hx
        · simp at hx
          exact Or.inr (Or.inr (congrArg Prod.fst hx).symm)
      · rw [if_neg h1] at hx
        exact Or.inl hx
    · simp at hx
      exact Or.inr (Or.inl (congrArg Prod.fst hx).symm)
  · rw [if_neg h2] at hx
    by_cases h1 : c = r.route.1
    · rw [if_pos h1] at hx
      rcases List.mem_append.mp hx with hx | hx
      · exact Or.inl hx
      · simp at hx
        exact Or.inr (Or.inr (congrArg Prod.fst hx).symm)
    · rw [if_neg h1] at hx
      exact Or.inl hx

theorem mem_foldl_build (routes : List ClaimedRoute) :
    ∀ (adj : City → List (City × Nat)) (c : City) (x : City × Nat),
      x ∈ routes.foldl build_step adj c → x ∈ adj c ∨ mentions routes x.1 := by
  induction routes with
  | nil =>
    intro adj c x hx
    exact Or.inl hx
  | cons r rest ih =>
    intro adj c x hx
    rw [List.foldl_cons] at hx
    rcases ih _ c x hx with hx2 | hm
    · rcases mem_build_step adj r c x hx2 with h | h | h
      · exact Or.inl h
      · exact Or.inr ⟨r, List.mem_cons_self _ _, Or.inl h⟩
      · exact Or.inr ⟨r, List.mem_cons_self _ _, Or.inr h⟩
    · obtain ⟨r2, hr2, ho⟩ := hm
      exact Or.inr ⟨r2, List.mem_cons_of_mem _ hr2, ho⟩

theorem mem_build_mentions (routes : List ClaimedRoute) (c : City) (x : City × Nat)
    (hx : x ∈ build_all_routes routes c) : mentions routes x.1 := by
  rw [build_all_routes_eq_foldl] at hx
  rcases mem_foldl_build routes _ c x hx with h | h
  · simp at h
  · exact h

/-- DFS only looks at the adjacency of cities reachable from the start, so
two adjacencies that agree on a closed city set give equal results. -/
theorem dfs_go_congr (adj adj' : City → List (City × Nat)) (S : City → Prop)
    (hagree : ∀ c, S c → adj' c = adj c)
    (hclosed : ∀ c, S c → ∀ x ∈ adj c, S x.1) :
    ∀ (start : City) (visited : Finset (City × City)) (current acc : Nat)
      (l : List (City × Nat)), S start → (∀ x ∈ l, x ∈ adj start) →
      dfs_go adj' start visited current acc l = dfs_go adj start visited current acc l := by
  intro start visited current acc l
  induction start, visited, current, acc, l using dfs_go.induct adj with
  | case1 start visited current acc =>
    intro _ _
    rw [dfs_go, dfs_go]
  | case2 start visited current acc e rest h ih =>
    intro hS hl
    rw [dfs_go, dfs_go, dif_pos h, dif_pos h]
    exact ih hS (fun x hx => hl x (List.mem_cons_of_mem _ hx))
  | case3 start visited current acc e rest h v2 sub ih1 ih2 ih3 =>
    intro hS hl
    have hsub : sub = dfs_go adj e.1 v2 (current + e.2) (current + e.2) (adj e.1) := rfl
    have hSe : S e.1 := hclosed start hS e (hl e (List.mem_cons_self _ _))
    rw [dfs_go, dfs_go, dif_neg h, dif_neg h]
    show dfs_go adj' start visited current
        (max acc (dfs_go adj' e.1 v2 (current + e.2) (current + e.2) (adj' e.1))) rest
      = dfs_go adj start visited current (max acc sub) rest
    rw [hagree e.1 hSe]
    rw [ih1 hSe (fun x hx => hx)]
    rw [← hsub]
    exact ih3 hS (fun x hx => hl x (List.mem_cons_of_mem _ hx))

theorem mem_cities_of (routes : List ClaimedRoute) (c : City) (hc : c ∈ cities_of routes) :
    mentions routes c := by
  unfold cities_of at hc
  simp only [List.mem_flatMap] at hc
  obtain ⟨r, hr, hcr⟩ := hc
  simp at hcr
  rcases hcr with rfl | rfl
  · exact ⟨r, hr, Or.inl rfl⟩
  · exact ⟨r, hr, Or.inr rfl⟩

/-- Property (d): appending routes disjoint from the first batch never
shrinks the longest route. -/
theorem get_longest_route_append_mono (r1 r2 : List ClaimedRoute)
    (hdisj : ∀ c, mentions r1 c → ¬mentions r2 c) :
    get_longest_route r1 ≤ get_longest_route (r1 ++ r2) := by
  have hcongr : ∀ c ∈ cities_of r1,
      (fun city => get_longest_route_from_city (build_all_routes (r1 ++ r2)) city ∅ 0) c
        = (fun city => get_longest_route_from_city (build_all_routes r1) city ∅ 0) c := by
    intro c hc
    have hSc : mentions r1 c := mem_cities_of r1 c hc
    show get_longest_route_from_city (build_all_routes (r1 ++ r2)) c ∅ 0
      = get_longest_route_from_city (build_all_routes r1) c ∅ 0
    unfold get_longest_route_from_city
    have hadj : build_all_routes (r1 ++ r2) c = build_all_routes r1 c :=
      build_append_not_mentioned r1 r2 c (hdisj c hSc)
    rw [hadj]
    exact dfs_go_congr (build_all_routes r1) (build_all_routes (r1 ++ r2)) (mentions r1)
      (fun c' hc' => build_append_not_mentioned r1 r2 c' (hdisj c' hc'))
      (fun c' _ x hx => mem_build_mentions r1 c' x hx)
      c ∅ 0 0 _ hSc (fun x hx => hx)
  have hcit : cities_of (r1 ++ r2) = cities_of r1 ++ cities_of r2 := by
    unfold cities_of
    rw [List.flatMap_append]
  show (cities_of r1).foldl
      (fun longest city =>
        max longest (get_longest_route_from_city (build_all_routes r1) city ∅ 0)) 0
    ≤ (cities_of (r1 ++ r2)).foldl
      (fun longest city =>
        max longest (get_longest_route_from_city (build_all_routes (r1 ++ r2)) city ∅ 0)) 0
  rw [hcit, List.foldl_append]
  refine le_trans (le_of_eq ?_) (le_foldl_max
    (fun city => get_longest_route_from_city (build_all_routes (r1 ++ r2)) city ∅ 0)
    (cities_of r2) _)
  exact (foldl_max_congr
    (fun city => get_longest_route_from_city (build_all_routes (r1 ++ r2)) city ∅ 0)
    (fun city => get_longest_route_from_city (build_all_routes r1) city ∅ 0)
    (cities_of r1) 0 hcongr).symm

instance (routes : List ClaimedRoute) (c : City) : Decidable (mentions routes c) := by
  unfold mentions
  infer_instance

/-- C8: `Map::get_longest_route` returns 0 on the empty claim list, returns
the segment's length on a single claimed segment (catalog routes always
connect two distinct cities, hence the distinctness hypothesis), never
exceeds the sum of all claimed lengths (again over routes with distinct
endpoints, as built by `claim_route_for_player` from the catalog), and
appending a batch of claimed routes whose cities are disjoint from the
original batch's never decreases the result. -/
theorem C8_get_longest_route_properties :
    get_longest_route [] = 0
    ∧ (∀ (a b : City), a ≠ b → ∀ (i L : Nat),
        get_longest_route [⟨(a, b), i, L⟩] = L)
    ∧ (∀ routes : List ClaimedRoute, (∀ r ∈ routes, r.route.1 ≠ r.route.2) →
        get_longest_route routes ≤ (routes.map ClaimedRoute.length).sum)
    ∧ (∀ r1 r2 : List ClaimedRoute, (∀ c, mentions r1 c → ¬mentions r2 c) →
        get_longest_route r1 ≤ get_longest_route (r1 ++ r2)) :=
  ⟨get_longest_route_nil, get_longest_route_single, get_longest_route_le_sum,
    get_longest_route_append_mono⟩

theorem C8_get_longest_route_properties_witness :
    get_longest_route [⟨(City.Atlanta, City.Boston), 0, 5⟩] = 5
    ∧ get_longest_route [⟨(City.Atlanta, City.Boston), 0, 5⟩]
        ≤ ([(⟨(City.Atlanta, City.Boston), 0, 5⟩ : ClaimedRoute)].map ClaimedRoute.length).sum
    ∧ get_longest_route [⟨(City.Atlanta, City.Boston), 0, 5⟩]
        ≤ get_longest_route
            ([⟨(City.Atlanta, City.Boston), 0, 5⟩] ++ [⟨(City.Chicago, City.Denver), 0, 4⟩]) :=
  ⟨C8_get_longest_route_properties.2.1 City.Atlanta City.Boston (by decide) 0 5,
   C8_get_longest_route_properties.2.2.1 _ (by decide),
   C8_get_longest_route_properties.2.2.2 _ _ (by decide)⟩

/-! ## Player (`player.rs`)

Human-readable description strings (`TurnActions::description` and the
`*_description` helpers) are not modelled: they are formatted prose carried
alongside the `actions` list and never branched on. `HashMap<TrainColor, u8>`
is a total function (the Rust map is initialized with every color, and the
`.get(..).unwrap()` calls rely on exactly that invariant). The Rust field
`private` is named `priv_state` here because `private` is a Lean keyword. -/

/-- `NUM_OF_CARS`. -/
def NUM_OF_CARS : Nat := 45

/-- `PlayerColor` (declaration order as in the source). -/
inductive PlayerColor where
  | Black
  | Blue
  | Green
  | Orange
  | Pink
  | Red
  | Yellow
  | White
deriving DecidableEq, Repr, Fintype

/-- `PlayerAction`. -/
inductive PlayerAction where
  | ClaimedRoute
  | DrewOpenWildTrainCard
  | DrewOpenNonWildTrainCard
  | DrewCloseTrainCard
  | DrewDestinationCards
  | SelectedDestinationCards
deriving DecidableEq, Repr

/-- `TurnActions` (the `description` strings are elided). -/
structure TurnActions where
  turn : Option Nat
  actions : List PlayerAction
deriving DecidableEq, Repr

def TurnActions.new : TurnActions := { turn := none, actions := [] }

/-- `PublicPlayerState` (the `name` string is kept, as the manager compares
names for uniqueness). -/
structure PublicPlayerState where
  id : Nat
  name : String
  color : PlayerColor
  is_ready : Bool
  is_done_playing : Bool
  cars : Nat
  points : Nat
  turn_actions : TurnActions
  claimed_routes : List ClaimedRoute
  num_train_cards : Nat
deriving DecidableEq, Repr

def PublicPlayerState.new (id : Nat) (color : PlayerColor) (name : String) :
    PublicPlayerState :=
  { id := id
    name := name
    color := color
    is_ready := false
    is_done_playing := false
    cars := NUM_OF_CARS
    points := 0
    turn_actions := TurnActions.new
    claimed_routes := []
    num_train_cards := 0 }

/-- `PrivatePlayerState`. -/
structure PrivatePlayerState where
  train_cards : TrainColor → Nat
  pending_destination_cards : List DestinationCard
  selected_destination_cards : List DestinationCard

def PrivatePlayerState.new : PrivatePlayerState :=
  { train_cards := fun _ => 0
    pending_destination_cards := []
    selected_destination_cards := [] }

/-- `Player` (field `private` renamed to `priv_state`). -/
structure Player where
  public : PublicPlayerState
  priv_state : PrivatePlayerState

/-- Errors returned by the player action handlers, one constructor per
`Err(..)` site (messages carried as data, formatting elided); `dealerErr`
and `mapErr` wrap errors propagated with `?` from the dealer and the map. -/
inductive PlayerErr where
  | cannotClaimAfterAction
  | notEnoughCars (route : CityToCity) (num_cards : Nat) (cars : Nat)
  | notEnoughWildCards (num : Nat) (inventory : Nat)
  | notEnoughColorCards (color : TrainColor) (num : Nat) (inventory : Nat)
  | cannotDrawTrainAfterDestination
  | cannotDrawDestinationAfterAction
  | wrongDecisionsLength (submitted : Nat) (drawn : Nat)
  | selectBeforeDraw
  | selectAfterTrainCard
  | tooFewSelected (num_selected : Nat) (minimum : Nat)
  | dealerErr (e : DealerErr)
  | mapErr (e : ClaimError)
deriving DecidableEq, Repr

/-- `Player::new`. -/
def Player.new (id : Nat) (color : PlayerColor) (name : String) : Player :=
  { public := PublicPlayerState.new id color name
    priv_state := PrivatePlayerState.new }

/-- `Player::replace_turn_action` (description elided). -/
def Player.replace_turn_action (p : Player) (turn : Nat) (action : PlayerAction) : Player :=
  { p with public := { p.public with turn_actions := { turn := some turn, actions := [action] } } }

/-- `Player::append_turn_action` (description elided). -/
def Player.append_turn_action (p : Player) (action : PlayerAction) : Player :=
  { p with public := { p.public with turn_actions :=
      { p.public.turn_actions with actions := p.public.turn_actions.actions ++ [action] } } }

/-- `Map::calculate_points_for_claimed_route`; `none` is the
`unreachable!()` panic on lengths outside 1..=6. -/
def calculate_points_for_claimed_route : Nat → Option Nat
  | 1 => some 1
  | 2 => some 2
  | 3 => some 4
  | 4 => some 7
  | 5 => some 10
  | 6 => some 15
  | _ => none

/-- The wild/non-wild counting loop of `Player::claim_route`: counts wild
cards and pairs the first non-wild color with its occurrence count. -/
def count_cards_loop (cards : List TrainColor) : Nat × Option (TrainColor × Nat) :=
  cards.foldl
    (fun acc card =>
      if card.is_wild then (acc.1 + 1, acc.2)
      else
        match acc.2 with
        | some (color, num) => (acc.1, some (color, num + 1))
        | none => (acc.1, some (card, 1)))
    (0, none)

/-- `Player::claim_route`. The success path calls
`Map::calculate_points_for_claimed_route`, whose out-of-range case is an
`unreachable!()` panic, hence the `Res` wrapper. -/
def Player.claim_route (σ : List TrainColor → List TrainColor)
    (p : Player) (route : CityToCity) (parallel_route_index : Nat)
    (cards : List TrainColor) (turn : Nat) (map : GameMap) (card_dealer : CardDealer) :
    Res (Except PlayerErr Bool × Player × GameMap × CardDealer) :=
  if (match p.public.turn_actions.turn with
      | some last_turn => decide (last_turn = turn)
      | none => false) then
    Res.ok (Except.error PlayerErr.cannotClaimAfterAction, p, map, card_dealer)
  else if cards.length > p.public.cars then
    Res.ok (Except.error (PlayerErr.notEnoughCars route cards.length p.public.cars),
      p, map, card_dealer)
  else
    let counts := count_cards_loop cards
    let num_wild_cards := counts.1
    let non_wild_cards := counts.2
    if num_wild_cards > 0 && p.priv_state.train_cards TrainColor.Wild < num_wild_cards then
      Res.ok (Except.error (PlayerErr.notEnoughWildCards num_wild_cards
        (p.priv_state.train_cards TrainColor.Wild)), p, map, card_dealer)
    else if (match non_wild_cards with
        | some (color, num) => decide (p.priv_state.train_cards color < num)
        | none => false) then
      match non_wild_cards with
      | some (color, num) =>
        Res.ok (Except.error (PlayerErr.notEnoughColorCards color num
          (p.priv_state.train_cards color)), p, map, card_dealer)
      | none => Res.ok (Except.error PlayerErr.cannotClaimAfterAction, p, map, card_dealer)
    else
      match map.claim_route_for_player route parallel_route_index cards p.public.id with
      | (Except.error e, m2) =>
        Res.ok (Except.error (PlayerErr.mapErr e), p, m2, card_dealer)
      | (Except.ok claimed_route, m2) =>
        match calculate_points_for_claimed_route claimed_route.length with
        | none => Res.panic
        | some points =>
          let p := p.replace_turn_action turn PlayerAction.ClaimedRoute
          let p :=
            if num_wild_cards > 0 then
              { p with
                priv_state := { p.priv_state with train_cards := (fun c =>
                  if c = TrainColor.Wild then p.priv_state.train_cards c - num_wild_cards
                  else p.priv_state.train_cards c) },
                public := { p.public with
                  num_train_cards := p.public.num_train_cards - num_wild_cards } }
            else p
          let p :=
            match non_wild_cards with
            | some (color, num) =>
              { p with
                priv_state := { p.priv_state with train_cards := (fun c =>
                  if c = color then p.priv_state.train_cards c - num
                  else p.priv_state.train_cards c) },
                public := { p.public with
                  num_train_cards := p.public.num_train_cards - num } }
            | none => p
          let p := { p with public := { p.public with
            points := p.public.points + points
            cars := p.public.cars - claimed_route.length
            claimed_routes := p.public.claimed_routes ++ [claimed_route] } }
          let card_dealer := card_dealer.discard_train_cards σ cards
          Res.ok (Except.ok true, p, m2, card_dealer)

/-- `Player::draw_destination_cards`. -/
def Player.draw_destination_cards (p : Player) (turn : Nat) (card_dealer : CardDealer) :
    Except PlayerErr Bool × Player × CardDealer :=
  if (match p.public.turn_actions.turn with
      | some last_turn => decide (last_turn = turn)
      | none => false) then
    (Except.error PlayerErr.cannotDrawDestinationAfterAction, p, card_dealer)
  else
    match card_dealer.draw_from_destination_card_deck with
    | (Except.error e, d2) => (Except.error (PlayerErr.dealerErr e), p, d2)
    | (Except.ok destination_cards, d2) =>
      let p := { p with priv_state :=
        { p.priv_state with pending_destination_cards := destination_cards } }
      let p := p.replace_turn_action turn PlayerAction.DrewDestinationCards
      (Except.ok false, p, d2)

/-- The backwards removal loop of `Player::select_destination_cards`: the
argument of the outer constructor is the loop index plus one, and the list
`pending` always has exactly that many elements at each entry (the loop runs
over `(0..n).rev()` with `n` the checked common length), so `remove(i)` is
`getD i` plus `eraseIdx i`; the default of `getD` is never read. -/
def select_destination_loop (destination_cards_decisions : List Bool) :
    Nat → List DestinationCard → List DestinationCard → List DestinationCard →
    List DestinationCard × List DestinationCard × List DestinationCard
  | 0, pending, selected, discarded => (pending, selected, discarded)
  | i + 1, pending, selected, discarded =>
    let destination_card := pending.getD i ⟨(City.Atlanta, City.Atlanta), 0⟩
    let pending := pending.eraseIdx i
    if destination_cards_decisions.getD i false then
      select_destination_loop destination_cards_decisions i pending
        (selected ++ [destination_card]) discarded
    else
      select_destination_loop destination_cards_decisions i pending
        selected (discarded ++ [destination_card])

/-- Tail of `Player::select_destination_cards` after `min_to_select` has
been determined. -/
def Player.select_destination_cards_finish (p : Player)
    (destination_cards_decisions : List Bool) (card_dealer : CardDealer)
    (min_to_select : Nat) : Except PlayerErr Bool × Player × CardDealer :=
  let num_selected := (destination_cards_decisions.filter (fun d => d)).length
  if num_selected < min_to_select then
    (Except.error (PlayerErr.tooFewSelected num_selected min_to_select), p, card_dealer)
  else
    let p := p.append_turn_action PlayerAction.SelectedDestinationCards
    let r := select_destination_loop destination_cards_decisions
      destination_cards_decisions.length p.priv_state.pending_destination_cards [] []
    let p := { p with priv_state := { p.priv_state with
      pending_destination_cards := r.1
      selected_destination_cards := p.priv_state.selected_destination_cards ++ r.2.1 } }
    let card_dealer := card_dealer.discard_destination_cards r.2.2
    (Except.ok true, p, card_dealer)

/-- `Player::select_destination_cards`. `Res.panic` covers both the
`actions[0]` indexing (panics when the turn action list is empty) and the
`_ => unreachable!()` arm of the `(turn_actions.turn, turn)` match. -/
def Player.select_destination_cards (p : Player)
    (destination_cards_decisions : List Bool) (turn : Option Nat)
    (card_dealer : CardDealer) :
    Res (Except PlayerErr Bool × Player × CardDealer) :=
  if destination_cards_decisions.length ≠ p.priv_state.pending_destination_cards.length then
    Res.ok (Except.error (PlayerErr.wrongDecisionsLength
      destination_cards_decisions.length p.priv_state.pending_destination_cards.length),
      p, card_dealer)
  else
    match p.public.turn_actions.turn, turn with
    | some last_turn, some t =>
      if last_turn ≠ t then
        Res.ok (Except.error PlayerErr.selectBeforeDraw, p, card_dealer)
      else
        match p.public.turn_actions.actions with
        | [] => Res.panic
        | a0 :: _ =>
          if a0 ≠ PlayerAction.DrewDestinationCards then
            Res.ok (Except.error PlayerErr.selectAfterTrainCard, p, card_dealer)
          else
            Res.ok (p.select_destination_cards_finish destination_cards_decisions
              card_dealer 1)
    | none, none =>
      Res.ok (p.select_destination_cards_finish destination_cards_decisions card_dealer 2)
    | _, _ => Res.panic

/-- Shared tail of `Player::draw_open_train_card` once `turn_second_draw`
is known. -/
def Player.draw_open_train_card_go (σ : List TrainColor → List TrainColor) (fuel : Nat)
    (p : Player) (card_index : Nat) (turn : Nat) (card_dealer : CardDealer)
    (turn_second_draw : Bool) :
    Res (Except PlayerErr Bool × Player × CardDealer) :=
  match card_dealer.draw_from_open_train_card_deck σ fuel card_index turn_second_draw with
  | none => Res.fuelOut
  | some (Except.error e, d2) => Res.ok (Except.error (PlayerErr.dealerErr e), p, d2)
  | some (Except.ok (card, _reshuffled), d2) =>
    let p := { p with
      priv_state := { p.priv_state with train_cards := (fun c =>
        if c = card then p.priv_state.train_cards c + 1 else p.priv_state.train_cards c) },
      public := { p.public with num_train_cards := p.public.num_train_cards + 1 } }
    if card.is_wild then
      Res.ok (Except.ok true, p.replace_turn_action turn PlayerAction.DrewOpenWildTrainCard, d2)
    else if turn_second_draw then
      Res.ok (Except.ok true, p.append_turn_action PlayerAction.DrewOpenNonWildTrainCard, d2)
    else
      Res.ok (Except.ok (!d2.can_player_draw_again_this_turn),
        p.replace_turn_action turn PlayerAction.DrewOpenNonWildTrainCard, d2)

/-- `Player::draw_open_train_card`. `Res.panic` is the `actions[0]`
indexing; `Res.fuelOut` propagates the reshuffle fuel. -/
def Player.draw_open_train_card (σ : List TrainColor → List TrainColor) (fuel : Nat)
    (p : Player) (card_index : Nat) (turn : Nat) (card_dealer : CardDealer) :
    Res (Except PlayerErr Bool × Player × CardDealer) :=
  match p.public.turn_actions.turn with
  | some last_turn =>
    if last_turn ≠ turn then
      p.draw_open_train_card_go σ fuel card_index turn card_dealer false
    else
      match p.public.turn_actions.actions with
      | [] => Res.panic
      | a0 :: _ =>
        if a0 = PlayerAction.DrewDestinationCards then
          Res.ok (Except.error PlayerErr.cannotDrawTrainAfterDestination, p, card_dealer)
        else
          p.draw_open_train_card_go σ fuel card_index turn card_dealer true
  | none => p.draw_open_train_card_go σ fuel card_index turn card_dealer false

/-- Shared tail of `Player::draw_close_train_card`. -/
def Player.draw_close_train_card_go (σ : List TrainColor → List TrainColor)
    (p : Player) (turn : Nat) (card_dealer : CardDealer) (turn_second_draw : Bool) :
    Res (Except PlayerErr Bool × Player × CardDealer) :=
  match card_dealer.draw_from_close_train_card_deck σ with
  | (Except.error e, d2) => Res.ok (Except.error (PlayerErr.dealerErr e), p, d2)
  | (Except.ok card, d2) =>
    let p := { p with
      priv_state := { p.priv_state with train_cards := (fun c =>
        if c = card then p.priv_state.train_cards c + 1 else p.priv_state.train_cards c) },
      public := { p.public with num_train_cards := p.public.num_train_cards + 1 } }
    if turn_second_draw then
      Res.ok (Except.ok true, p.append_turn_action PlayerAction.DrewCloseTrainCard, d2)
    else
      Res.ok (Except.ok (!d2.can_player_draw_again_this_turn),
        p.replace_turn_action turn PlayerAction.DrewCloseTrainCard, d2)

/-- `Player::draw_close_train_card`. -/
def Player.draw_close_train_card (σ : List TrainColor → List TrainColor)
    (p : Player) (turn : Nat) (card_dealer : CardDealer) :
    Res (Except PlayerErr Bool × Player × CardDealer) :=
  match p.public.turn_actions.turn with
  | some last_turn =>
    if last_turn ≠ turn then
      p.draw_close_train_card_go σ turn card_dealer false
    else
      match p.public.turn_actions.actions with
      | [] => Res.panic
      | a0 :: _ =>
        if a0 = PlayerAction.DrewDestinationCards then
          Res.ok (Except.error PlayerErr.cannotDrawTrainAfterDestination, p, card_dealer)
        else
          p.draw_close_train_card_go σ turn card_dealer true
  | none => p.draw_close_train_card_go σ turn card_dealer false

/-! ## Manager (`manager.rs`)

`players_position : HashMap<usize, usize>` is a total function to
`Option Nat`. `add_player` and `get_state` (pure queries / default name
generation) are not needed by any claim and are not modelled. The player
shuffle of `start_game` is an oracle `σp`, like the card shuffles. -/

/-- `MIN_PLAYERS`. -/
def MIN_PLAYERS : Nat := 2

/-- `MAX_PLAYERS`. -/
def MAX_PLAYERS : Nat := 5

/-- `GamePhase`. -/
inductive GamePhase where
  | InLobby
  | Starting
  | Playing
  | LastTurn
  | Done
deriving DecidableEq, Repr

/-- Errors of the manager entry points, one constructor per `Err(..)` site
(messages elided); `playerErr` wraps errors propagated with `?` from the
player, `mapNewFailed` the error propagated from `Map::new`. -/
inductive ManagerErr where
  | nameOutsideLobby
  | nameExists (name : String)
  | colorOutsideLobby
  | colorExists (color : PlayerColor)
  | readyOutsideLobby
  | mapNewFailed
  | gameNotStarted
  | turnBasedNotStarted
  | notYourTurn
  | playerErr (e : PlayerErr)

/-- `Manager`. -/
structure Manager where
  phase : GamePhase
  turn : Option Nat
  map : Option GameMap
  card_dealer : Option CardDealer
  players : List Player
  players_position : Nat → Option Nat
  num_players_selected_initial_destination_cards : Nat
  num_players_done_playing : Nat

/-- `Manager::new`. -/
def Manager.new : Manager :=
  { phase := GamePhase.InLobby
    turn := none
    map := none
    card_dealer := none
    players := []
    players_position := fun _ => none
    num_players_selected_initial_destination_cards := 0
    num_players_done_playing := 0 }

/-- `Manager::num_players`. -/
def Manager.num_players (m : Manager) : Nat := m.players.length

/-- `Manager::get_player_index`. -/
def Manager.get_player_index (m : Manager) (player_id : Nat) : Option Nat :=
  m.players_position player_id

/-- `Manager::change_player_name`. `Res.panic` is the `players[player_id]`
indexing, which panics when `player_id` is out of range. -/
def Manager.change_player_name (m : Manager) (player_id : Nat) (new_name : String) :
    Res (Except ManagerErr Unit × Manager) :=
  if m.phase ≠ GamePhase.InLobby then
    Res.ok (Except.error ManagerErr.nameOutsideLobby, m)
  else if m.players.any (fun player => player.public.name = new_name) then
    Res.ok (Except.error (ManagerErr.nameExists new_name), m)
  else if hlt : player_id < m.players.length then
    let player := m.players.get ⟨player_id, hlt⟩
    let players2 := m.players.set player_id
      { player with public := { player.public with name := new_name } }
    Res.ok (Except.ok (), { m with players := players2 })
  else Res.panic

/-- `Manager::change_player_color`; same panic as `change_player_name`. -/
def Manager.change_player_color (m : Manager) (player_id : Nat) (new_color : PlayerColor) :
    Res (Except ManagerErr Unit × Manager) :=
  if m.phase ≠ GamePhase.InLobby then
    Res.ok (Except.error ManagerErr.colorOutsideLobby, m)
  else if m.players.any (fun player => player.public.color = new_color) then
    Res.ok (Except.error (ManagerErr.colorExists new_color), m)
  else if hlt : player_id < m.players.length then
    let player := m.players.get ⟨player_id, hlt⟩
    let players2 := m.players.set player_id
      { player with public := { player.public with color := new_color } }
    Res.ok (Except.ok (), { m with players := players2 })
  else Res.panic

/-- `Player::initialize_when_game_starts`. -/
def Player.initialize_when_game_starts (σ : List TrainColor → List TrainColor)
    (p : Player) (card_dealer : CardDealer) : Res (Player × CardDealer) :=
  match card_dealer.initial_draw σ with
  | Res.ok (initial_train_cards, initial_destination_cards, d2) =>
    Res.ok ({ p with
      public := { p.public with
        num_train_cards := p.public.num_train_cards + initial_train_cards.length },
      priv_state := { p.priv_state with
        train_cards := initial_train_cards.foldl
          (fun tc card => fun c => if c = card then tc c + 1 else tc c)
          p.priv_state.train_cards,
        pending_destination_cards :=
          p.priv_state.pending_destination_cards ++ initial_destination_cards } }, d2)
  | Res.panic => Res.panic
  | Res.fuelOut => Res.fuelOut

/-- The `for (index, player)` loop of `Manager::start_game`: records each
player's position and deals their initial cards, threading the dealer. -/
def initialize_players_loop (σ : List TrainColor → List TrainColor) :
    List Player → Nat → CardDealer → (Nat → Option Nat) →
    Res (List Player × CardDealer × (Nat → Option Nat))
  | [], _, d, pos => Res.ok ([], d, pos)
  | p :: rest, index, d, pos =>
    let pos2 := fun pid => if pid = p.public.id then some index else pos pid
    match p.initialize_when_game_starts σ d with
    | Res.ok (p2, d2) =>
      match initialize_players_loop σ rest (index + 1) d2 pos2 with
      | Res.ok (ps, d3, pos3) => Res.ok (p2 :: ps, d3, pos3)
      | Res.panic => Res.panic
      | Res.fuelOut => Res.fuelOut
    | Res.panic => Res.panic
    | Res.fuelOut => Res.fuelOut

/-- `Manager::start_game`. -/
def Manager.start_game (σp : List Player → List Player)
    (σ : List TrainColor → List TrainColor)
    (σd : List DestinationCard → List DestinationCard) (fuel : Nat) (m : Manager) :
    Res (Except ManagerErr Unit × Manager) :=
  match GameMap.new m.num_players with
  | none => Res.ok (Except.error ManagerErr.mapNewFailed, m)
  | some map =>
    match CardDealer.new σ σd fuel with
    | none => Res.fuelOut
    | some card_dealer =>
      let shuffled := σp m.players
      match initialize_players_loop σ shuffled 0 card_dealer m.players_position with
      | Res.ok (players2, d2, pos2) =>
        Res.ok (Except.ok (), { m with
          phase := GamePhase.Starting
          players := players2
          players_position := pos2
          map := some map
          card_dealer := some d2 })
      | Res.panic => Res.panic
      | Res.fuelOut => Res.fuelOut

/-- `Manager::set_ready`. `Res.panic` is the `players[player_id]` indexing. -/
def Manager.set_ready (σp : List Player → List Player)
    (σ : List TrainColor → List TrainColor)
    (σd : List DestinationCard → List DestinationCard) (fuel : Nat)
    (m : Manager) (player_id : Nat) (is_ready : Bool) :
    Res (Except ManagerErr Unit × Manager) :=
  if m.phase ≠ GamePhase.InLobby then
    Res.ok (Except.error ManagerErr.readyOutsideLobby, m)
  else if hlt : player_id < m.players.length then
    let player := m.players.get ⟨player_id, hlt⟩
    let players2 := m.players.set player_id
      { player with public := { player.public with is_ready := is_ready } }
    let m1 := { m with players := players2 }
    if MIN_PLAYERS ≤ m1.num_players ∧ m1.players.all (fun pl => pl.public.is_ready) then
      match m1.start_game σp σ σd fuel with
      | Res.ok (Except.error e, m2) => Res.ok (Except.error e, m2)
      | Res.ok (Except.ok _, m2) => Res.ok (Except.ok (), m2)
      | Res.panic => Res.panic
      | Res.fuelOut => Res.fuelOut
    else Res.ok (Except.ok (), m1)
  else Res.panic

/-- `Manager::maybe_player_and_game_done`. The `Done` transition calls
`Player::finalize_game`, which is absent from `player.rs` (its trailing TODO
announces it); per the spec it scores destination cards and flags the
longest-route holders, touching only state (`points`, a has-longest-route
flag) that no claim in this development references, so only the phase
transition (present in the source) is modelled here. `Res.panic` covers the
`players[player_index]` indexing and the `map.as_mut().unwrap()`. -/
def Manager.maybe_player_and_game_done (m : Manager) (player_index : Nat) : Res Manager :=
  if m.phase ≠ GamePhase.LastTurn then Res.ok m
  else
    let m1 := { m with num_players_done_playing := m.num_players_done_playing + 1 }
    if hlt : player_index < m1.players.length then
      let player := m1.players.get ⟨player_index, hlt⟩
      let players2 := m1.players.set player_index
        { player with public := { player.public with is_done_playing := true } }
      let m2 := { m1 with players := players2 }
      if m2.num_players_done_playing ≠ m2.num_players then Res.ok m2
      else
        match m2.map with
        | none => Res.panic
        | some _ => Res.ok { m2 with phase := GamePhase.Done }
    else Res.panic

/-- Tail of `Manager::select_destination_cards` after the phase and turn
validation: the `players[player_index]` indexing, the
`card_dealer.as_mut().unwrap()`, the delegation to the player, and the
post-success phase bookkeeping (`increment_turn`'s `unwrap` is a panic). -/
def Manager.select_destination_cards_go (m : Manager) (player_index : Nat)
    (destination_cards_decisions : List Bool) :
    Res (Except ManagerErr Unit × Manager) :=
  if hlt : player_index < m.players.length then
    let player := m.players.get ⟨player_index, hlt⟩
    match m.card_dealer with
    | none => Res.panic
    | some d =>
      match player.select_destination_cards destination_cards_decisions m.turn d with
      | Res.panic => Res.panic
      | Res.fuelOut => Res.fuelOut
      | Res.ok (Except.error e, p2, d2) =>
        Res.ok (Except.error (ManagerErr.playerErr e),
          { m with players := m.players.set player_index p2, card_dealer := some d2 })
      | Res.ok (Except.ok _, p2, d2) =>
        let m1 := { m with players := m.players.set player_index p2, card_dealer := some d2 }
        if m1.phase = GamePhase.Starting then
          let m2 := { m1 with num_players_selected_initial_destination_cards :=
            m1.num_players_selected_initial_destination_cards + 1 }
          if m2.num_players_selected_initial_destination_cards = m2.num_players then
            Res.ok (Except.ok (), { m2 with phase := GamePhase.Playing, turn := some 0 })
          else Res.ok (Except.ok (), m2)
        else
          match m1.turn with
          | none => Res.panic
          | some t =>
            match Manager.maybe_player_and_game_done { m1 with turn := some (t + 1) }
                player_index with
            | Res.ok m3 => Res.ok (Except.ok (), m3)
            | Res.panic => Res.panic
            | Res.fuelOut => Res.fuelOut
  else Res.panic

/-- `Manager::select_destination_cards`. `Res.panic` additionally covers the
`get_player_index(..).unwrap()` (unknown `player_id`), `is_player_turn`'s
`turn.unwrap()`, and the `%` by zero when there are no players. -/
def Manager.select_destination_cards (m : Manager) (player_id : Nat)
    (destination_cards_decisions : List Bool) :
    Res (Except ManagerErr Unit × Manager) :=
  if ¬(m.phase = GamePhase.Starting ∨ m.phase = GamePhase.Playing
      ∨ m.phase = GamePhase.LastTurn) then
    Res.ok (Except.error ManagerErr.gameNotStarted, m)
  else
    match m.get_player_index player_id with
    | none => Res.panic
    | some player_index =>
      if m.phase = GamePhase.Playing ∨ m.phase = GamePhase.LastTurn then
        match m.turn with
        | none => Res.panic
        | some t =>
          if m.num_players = 0 then Res.panic
          else if t % m.num_players ≠ player_index then
            Res.ok (Except.error ManagerErr.notYourTurn, m)
          else
            m.select_destination_cards_go player_index destination_cards_decisions
      else
        m.select_destination_cards_go player_index destination_cards_decisions

/-- `Manager::draw_destination_cards`; same panic sites as
`select_destination_cards`. -/
def Manager.draw_destination_cards (m : Manager) (player_id : Nat) :
    Res (Except ManagerErr Unit × Manager) :=
  if ¬(m.phase = GamePhase.Playing ∨ m.phase = GamePhase.LastTurn) then
    Res.ok (Except.error ManagerErr.turnBasedNotStarted, m)
  else
    match m.get_player_index player_id with
    | none => Res.panic
    | some player_index =>
      match m.turn with
      | none => Res.panic
      | some t =>
        if m.num_players = 0 then Res.panic
        else if t % m.num_players ≠ player_index then
          Res.ok (Except.error ManagerErr.notYourTurn, m)
        else if hlt : player_index < m.players.length then
          let player := m.players.get ⟨player_index, hlt⟩
          match m.card_dealer with
          | none => Res.panic
          | some d =>
            match player.draw_destination_cards t d with
            | (Except.error e, p2, d2) =>
              Res.ok (Except.error (ManagerErr.playerErr e),
                { m with players := m.players.set player_index p2, card_dealer := some d2 })
            | (Except.ok _, p2, d2) =>
              Res.ok (Except.ok (),
                { m with players := m.players.set player_index p2, card_dealer := some d2 })
        else Res.panic

/-! ## No partial mutation on error (spec: "partial successes are
impossible") -/

theorem set_get_self {α : Type} : ∀ (l : List α) (i : Nat) (h : i < l.length),
    l.set i (l.get ⟨i, h⟩) = l
  | [], i, h => absurd h (by simp)
  | x :: xs, 0, _ => rfl
  | x :: xs, i + 1, h => by
    simp only [List.set, List.get]
    rw [set_get_self xs i (by simpa using h)]

theorem claim_route_err_map (m : GameMap) (route : CityToCity) (i : Nat)
    (cards : List TrainColor) (pid : Nat) (e : ClaimError) (m2 : GameMap)
    (h : m.claim_route_for_player route i cards pid = (Except.error e, m2)) : m2 = m := by
  unfold GameMap.claim_route_for_player at h
  split at h
  · simp at h
    exact h.2.symm
  · simp at h

theorem claim_route_err_player (σ : List TrainColor → List TrainColor) (p : Player)
    (route : CityToCity) (idx : Nat) (cards : List TrainColor) (turn : Nat)
    (map : GameMap) (card_dealer : CardDealer) (e : PlayerErr)
    (p2 : Player) (m2 : GameMap) (d2 : CardDealer)
    (h : Player.claim_route σ p route idx cards turn map card_dealer
      = Res.ok (Except.error e, p2, m2, d2)) :
    p2 = p ∧ m2 = map ∧ d2 = card_dealer := by
  unfold Player.claim_route at h
  dsimp only at h
  repeat' split at h
  all_goals try (simp only [Res.ok.injEq, Prod.mk.injEq] at h
                 exact ⟨h.2.1.symm, h.2.2.1.symm, h.2.2.2.symm⟩)
  all_goals try (simp at h)
  all_goals rename_i x3 e3 m3 heq
  all_goals exact ⟨h.2.1.symm,
    by rw [← h.2.2.1]; exact claim_route_err_map map route idx cards p.public.id e3 m3 heq,
    h.2.2.2.symm⟩

theorem draw_open_err_player (σ : List TrainColor → List TrainColor) (fuel : Nat)
    (p : Player) (card_index turn : Nat) (card_dealer : CardDealer) (e : PlayerErr)
    (p2 : Player) (d2 : CardDealer)
    (h : Player.draw_open_train_card σ fuel p card_index turn card_dealer
      = Res.ok (Except.error e, p2, d2)) :
    p2 = p ∧ d2 = card_dealer := by
  unfold Player.draw_open_train_card Player.draw_open_train_card_go at h
  dsimp only at h
  repeat' split at h
  all_goals try (simp only [Res.ok.injEq, Prod.mk.injEq] at h
                 exact ⟨h.2.1.symm, h.2.2.symm⟩)
  all_goals try (simp at h)
  all_goals rename_i heq
  all_goals exact ⟨h.2.1.symm,
    by rw [← h.2.2]
       exact draw_open_err_state σ fuel card_index _ card_dealer _ _ heq⟩

theorem draw_close_err_player (σ : List TrainColor → List TrainColor)
    (p : Player) (turn : Nat) (card_dealer : CardDealer) (e : PlayerErr)
    (p2 : Player) (d2 : CardDealer)
    (h : Player.draw_close_train_card σ p turn card_dealer
      = Res.ok (Except.error e, p2, d2)) :
    p2 = p ∧ d2 = card_dealer := by
  unfold Player.draw_close_train_card Player.draw_close_train_card_go at h
  dsimp only at h
  repeat' split at h
  all_goals try (simp only [Res.ok.injEq, Prod.mk.injEq] at h
                 exact ⟨h.2.1.symm, h.2.2.symm⟩)
  all_goals try (simp at h)
  all_goals rename_i heq
  all_goals exact ⟨h.2.1.symm,
    by rw [← h.2.2]
       exact draw_close_err σ card_dealer _ _ heq⟩

theorem draw_dest_err_player (p : Player) (turn : Nat) (card_dealer : CardDealer)
    (e : PlayerErr) (p2 : Player) (d2 : CardDealer)
    (h : Player.draw_destination_cards p turn card_dealer = (Except.error e, p2, d2)) :
    p2 = p ∧ d2 = card_dealer := by
  unfold Player.draw_destination_cards at h
  dsimp only at h
  repeat' split at h
  all_goals try (simp only [Prod.mk.injEq] at h
                 exact ⟨h.2.1.symm, h.2.2.symm⟩)
  all_goals try (simp at h)
  all_goals rename_i heq
  all_goals exact ⟨h.2.1.symm,
    by rw [← h.2.2]
       exact draw_dest_err_state card_dealer _ _ heq⟩

theorem select_dest_err_player (p : Player) (decisions : List Bool) (turn : Option Nat)
    (card_dealer : CardDealer) (e : PlayerErr) (p2 : Player) (d2 : CardDealer)
    (h : Player.select_destination_cards p decisions turn card_dealer
      = Res.ok (Except.error e, p2, d2)) :
    p2 = p ∧ d2 = card_dealer := by
  unfold Player.select_destination_cards Player.select_destination_cards_finish at h
  dsimp only at h
  repeat' split at h
  all_goals try (simp only [Res.ok.injEq, Prod.mk.injEq] at h
                 exact ⟨h.2.1.symm, h.2.2.symm⟩)
  all_goals simp at h

theorem GameMap.new_eq_none (n : Nat) :
    GameMap.new n = none ↔ (n < 2 ∨ 5 < n) := by
  unfold GameMap.new
  split
  · simp
    assumption
  · rename_i hcond
    simp
    omega

theorem change_name_err_manager (m : Manager) (player_id : Nat) (new_name : String)
    (e : ManagerErr) (m2 : Manager)
    (h : m.change_player_name player_id new_name = Res.ok (Except.error e, m2)) :
    m2 = m := by
  unfold Manager.change_player_name at h
  dsimp only at h
  repeat' split at h
  all_goals try (simp only [Res.ok.injEq, Prod.mk.injEq] at h
                 exact h.2.symm)
  all_goals simp at h

theorem change_color_err_manager (m : Manager) (player_id : Nat) (new_color : PlayerColor)
    (e : ManagerErr) (m2 : Manager)
    (h : m.change_player_color player_id new_color = Res.ok (Except.error e, m2)) :
    m2 = m := by
  unfold Manager.change_player_color at h
  dsimp only at h
  repeat' split at h
  all_goals try (simp only [Res.ok.injEq, Prod.mk.injEq] at h
                 exact h.2.symm)
  all_goals simp at h

theorem start_game_err_manager (σp : List Player → List Player)
    (σ : List TrainColor → List TrainColor)
    (σd : List DestinationCard → List DestinationCard) (fuel : Nat)
    (m : Manager) (e : ManagerErr) (m2 : Manager)
    (h : m.start_game σp σ σd fuel = Res.ok (Except.error e, m2)) :
    (m.num_players < 2 ∨ 5 < m.num_players) ∧ m2 = m := by
  unfold Manager.start_game at h
  rcases hnew : GameMap.new m.num_players with _ | map
  · rw [hnew] at h
    simp only [] at h
    simp only [Res.ok.injEq, Prod.mk.injEq] at h
    exact ⟨(GameMap.new_eq_none m.num_players).mp hnew, h.2.symm⟩
  · rw [hnew] at h
    simp only [] at h
    repeat' split at h
    all_goals simp at h

theorem set_ready_err_manager (σp : List Player → List Player)
    (σ : List TrainColor → List TrainColor)
    (σd : List DestinationCard → List DestinationCard) (fuel : Nat)
    (m : Manager) (player_id : Nat) (is_ready : Bool) (e : ManagerErr) (m2 : Manager)
    (hmax : m.players.length ≤ MAX_PLAYERS)
    (h : m.set_ready σp σ σd fuel player_id is_ready = Res.ok (Except.error e, m2)) :
    m2 = m := by
  unfold Manager.set_ready at h
  dsimp only at h
  split at h
  · simp only [Res.ok.injEq, Prod.mk.injEq] at h
    exact h.2.symm
  · split at h
    · split at h
      · rename_i hguard
        split at h
        · rename_i e2 m2b heq
          simp only [Res.ok.injEq, Prod.mk.injEq] at h
          have hb := start_game_err_manager σp σ σd fuel _ _ _ heq
          simp only [Manager.num_players, List.length_set] at hb hguard
          have hmin : MIN_PLAYERS ≤ m.players.length := hguard.1
          unfold MIN_PLAYERS at hmin
          unfold MAX_PLAYERS at hmax
          rcases hb.1 with hb1 | hb1
          · omega
          · omega
        · simp at h
        · simp at h
        · simp at h
      · simp at h
    · simp at h

theorem select_err_manager (m : Manager) (player_id : Nat) (decisions : List Bool)
    (e : ManagerErr) (m2 : Manager)
    (h : m.select_destination_cards player_id decisions = Res.ok (Except.error e, m2)) :
    m2 = m := by
  unfold Manager.select_destination_cards Manager.select_destination_cards_go at h
  dsimp only at h
  repeat' split at h
  all_goals try (simp only [Res.ok.injEq, Prod.mk.injEq] at h
                 exact h.2.symm)
  all_goals try (simp at h)
  all_goals rename_i hlt xd cd hdeal xr e2 p2 d2 heq
  all_goals obtain ⟨he, hm⟩ := h
  all_goals obtain ⟨hp2, hd2⟩ := select_dest_err_player _ decisions m.turn cd e2 p2 d2 heq
  all_goals rw [← hm, hp2, hd2, ← hdeal, set_get_self]

theorem draw_dest_err_manager (m : Manager) (player_id : Nat)
    (e : ManagerErr) (m2 : Manager)
    (h : m.draw_destination_cards player_id = Res.ok (Except.error e, m2)) :
    m2 = m := by
  unfold Manager.draw_destination_cards at h
  dsimp only at h
  repeat' split at h
  all_goals try (simp only [Res.ok.injEq, Prod.mk.injEq] at h
                 exact h.2.symm)
  all_goals try (simp at h)
  all_goals rename_i t heqt hnp hmod hlt xd cd hdeal xr e2 p2 d2 heq
  all_goals obtain ⟨he, hm⟩ := h
  all_goals obtain ⟨hp2, hd2⟩ := draw_dest_err_player _ t cd e2 p2 d2 heq
  all_goals rw [← hm, hp2, hd2, ← hdeal, set_get_self]

/-- C3: no partial mutation on error. For every embedded action handler —
dealer draws, map claim, player claim/draws/select, manager
name/color/ready/select/draw — a returned `Err` leaves the threaded state
exactly as it was before the call. The `set_ready` conjunct assumes the
player list respects the `MAX_PLAYERS` bound that `Manager::add_player`
enforces on every reachable state. -/
theorem C3_no_partial_mutation_on_error :
    (∀ (σ : List TrainColor → List TrainColor) (d : CardDealer) (e : DealerErr)
        (d2 : CardDealer),
      d.draw_from_close_train_card_deck σ = (Except.error e, d2) → d2 = d)
    ∧ (∀ (σ : List TrainColor → List TrainColor) (fuel i : Nat) (s : Bool)
        (d : CardDealer) (e : DealerErr) (d2 : CardDealer),
      d.draw_from_open_train_card_deck σ fuel i s = some (Except.error e, d2) → d2 = d)
    ∧ (∀ (d : CardDealer) (e : DealerErr) (d2 : CardDealer),
      d.draw_from_destination_card_deck = (Except.error e, d2) → d2 = d)
    ∧ (∀ (m : GameMap) (route : CityToCity) (i : Nat) (cards : List TrainColor)
        (pid : Nat) (e : ClaimError) (m2 : GameMap),
      m.claim_route_for_player route i cards pid = (Except.error e, m2) → m2 = m)
    ∧ (∀ (σ : List TrainColor → List TrainColor) (p : Player) (route : CityToCity)
        (idx : Nat) (cards : List TrainColor) (turn : Nat) (map : GameMap)
        (d : CardDealer) (e : PlayerErr) (p2 : Player) (m2 : GameMap) (d2 : CardDealer),
      Player.claim_route σ p route idx cards turn map d
        = Res.ok (Except.error e, p2, m2, d2) → p2 = p ∧ m2 = map ∧ d2 = d)
    ∧ (∀ (σ : List TrainColor → List TrainColor) (fuel : Nat) (p : Player)
        (i turn : Nat) (d : CardDealer) (e : PlayerErr) (p2 : Player) (d2 : CardDealer),
      Player.draw_open_train_card σ fuel p i turn d
        = Res.ok (Except.error e, p2, d2) → p2 = p ∧ d2 = d)
    ∧ (∀ (σ : List TrainColor → List TrainColor) (p : Player) (turn : Nat)
        (d : CardDealer) (e : PlayerErr) (p2 : Player) (d2 : CardDealer),
      Player.draw_close_train_card σ p turn d
        = Res.ok (Except.error e, p2, d2) → p2 = p ∧ d2 = d)
    ∧ (∀ (p : Player) (turn : Nat) (d : CardDealer) (e : PlayerErr) (p2 : Player)
        (d2 : CardDealer),
      Player.draw_destination_cards p turn d = (Except.error e, p2, d2) →
        p2 = p ∧ d2 = d)
    ∧ (∀ (p : Player) (decs : List Bool) (turn : Option Nat) (d : CardDealer)
        (e : PlayerErr) (p2 : Player) (d2 : CardDealer),
      Player.select_destination_cards p decs turn d
        = Res.ok (Except.error e, p2, d2) → p2 = p ∧ d2 = d)
    ∧ (∀ (m : Manager) (pid : Nat) (name : String) (e : ManagerErr) (m2 : Manager),
      m.change_player_name pid name = Res.ok (Except.error e, m2) → m2 = m)
    ∧ (∀ (m : Manager) (pid : Nat) (color : PlayerColor) (e : ManagerErr) (m2 : Manager),
      m.change_player_color pid color = Res.ok (Except.error e, m2) → m2 = m)
    ∧ (∀ (σp : List Player → List Player) (σ : List TrainColor → List TrainColor)
        (σd : List DestinationCard → List DestinationCard) (fuel : Nat) (m : Manager)
        (pid : Nat) (r : Bool) (e : ManagerErr) (m2 : Manager),
      m.players.length ≤ MAX_PLAYERS →
        m.set_ready σp σ σd fuel pid r = Res.ok (Except.error e, m2) → m2 = m)
    ∧ (∀ (m : Manager) (pid : Nat) (decs : List Bool) (e : ManagerErr) (m2 : Manager),
      m.select_destination_cards pid decs = Res.ok (Except.error e, m2) → m2 = m)
    ∧ (∀ (m : Manager) (pid : Nat) (e : ManagerErr) (m2 : Manager),
      m.draw_destination_cards pid = Res.ok (Except.error e, m2) → m2 = m) :=
  ⟨fun σ d e d2 h => draw_close_err σ d e d2 h,
   fun σ fuel i s d e d2 h => draw_open_err_state σ fuel i s d d2 e h,
   fun d e d2 h => draw_dest_err_state d d2 e h,
   fun m route i cards pid e m2 h => claim_route_err_map m route i cards pid e m2 h,
   fun σ p route idx cards turn map d e p2 m2 d2 h =>
     claim_route_err_player σ p route idx cards turn map d e p2 m2 d2 h,
   fun σ fuel p i turn d e p2 d2 h => draw_open_err_player σ fuel p i turn d e p2 d2 h,
   fun σ p turn d e p2 d2 h => draw_close_err_player σ p turn d e p2 d2 h,
   fun p turn d e p2 d2 h => draw_dest_err_player p turn d e p2 d2 h,
   fun p decs turn d e p2 d2 h => select_dest_err_player p decs turn d e p2 d2 h,
   fun m pid name e m2 h => change_name_err_manager m pid name e m2 h,
   fun m pid color e m2 h => change_color_err_manager m pid color e m2 h,
   fun σp σ σd fuel m pid r e m2 hmax h =>
     set_ready_err_manager σp σ σd fuel m pid r e m2 hmax h,
   fun m pid decs e m2 h => select_err_manager m pid decs e m2 h,
   fun m pid e m2 h => draw_dest_err_manager m pid e m2 h⟩

theorem C3_no_partial_mutation_on_error_witness :
    Manager.select_destination_cards Manager.new 0 []
      = Res.ok (Except.error ManagerErr.gameNotStarted, Manager.new)
    ∧ Manager.new = Manager.new :=
  ⟨rfl, C3_no_partial_mutation_on_error.2.2.2.2.2.2.2.2.2.2.2.2.1
    Manager.new 0 [] ManagerErr.gameNotStarted Manager.new rfl⟩

/-- C4: the claim is false in the source. `Manager::change_player_name`
runs its phase and uniqueness checks and then indexes `players[player_id]`
directly, so an out-of-range `player_id` panics instead of returning an
error — exhibited here on the freshly constructed (empty) manager.
`Manager::select_destination_cards` likewise calls
`get_player_index(player_id).unwrap()`, which panics for any id the
position map does not know — exhibited on a manager whose phase passed the
`has_game_started` check. -/
theorem C4_out_of_range_player_id_panics :
    Manager.change_player_name Manager.new 0 "Alice" = Res.panic
    ∧ Manager.select_destination_cards
        { Manager.new with phase := GamePhase.Starting } 0 [] = Res.panic :=
  ⟨rfl, rfl⟩

/-- C7: starting from a fresh dealer, every reachable dealer state conserves
the train-card census — the multiset union of the open, close and discard
decks plus all extracted (returned to callers, not yet re-discarded) cards
equals the fixed starting census of 12 cards of each of the eight real
colors plus 14 wild cards, 110 cards in total. -/
theorem C7_train_card_conservation :
    (∀ s : DealerState, DealerReach s →
      s.dealer.train_census + (↑s.extracted : Multiset TrainColor) = start_census)
    ∧ (∀ c : TrainColor, start_census.count c = if c.is_wild then 14 else 12)
    ∧ Multiset.card start_census = 110 :=
  ⟨conservation_reach, by decide, by decide⟩

theorem C7_train_card_conservation_witness :
    c1_dealer0.train_census + (↑([] : List TrainColor) : Multiset TrainColor) = start_census :=
  C7_train_card_conservation.1 ⟨c1_dealer0, []⟩
    (DealerReach.init c1_shuffle id 1 c1_dealer0 c1_shuffle_perm c1_new_eval)

theorem drawDestinationLoop_length :
    ∀ (n : Nat) (deck : List DestinationCard),
      (drawDestinationLoop n deck).1.length + (drawDestinationLoop n deck).2.length
        = deck.length
      ∧ (drawDestinationLoop n deck).1.length = min n deck.length
  | 0, deck => by simp [drawDestinationLoop]
  | n + 1, deck => by
    unfold drawDestinationLoop
    rcases hp : popLast deck with _ | ⟨c, rest⟩
    · have : deck = [] := (popLast_eq_none deck).mp hp
      subst this
      simp
    · have hlen := popLast_length deck c rest hp
      have ih := drawDestinationLoop_length n rest
      simp only []
      constructor
      · simp only [List.length_cons]
        omega
      · simp only [List.length_cons]
        omega

/-- C10: when `Player::draw_destination_cards` succeeds, the pending list
afterwards is exactly the 1–3 cards the dealer returned in that call; the
previously pending cards are dropped outright — they are neither kept by the
player (the selected list is untouched) nor returned to the dealer, whose
destination deck only shrinks by the drawn cards. -/
theorem C10_draw_destination_drops_pending :
    ∀ (p : Player) (turn : Nat) (d : CardDealer) (b : Bool) (p2 : Player)
      (d2 : CardDealer),
      Player.draw_destination_cards p turn d = (Except.ok b, p2, d2) →
      ∃ cards : List DestinationCard,
        d.draw_from_destination_card_deck = (Except.ok cards, d2)
        ∧ p2.priv_state.pending_destination_cards = cards
        ∧ p2.priv_state.selected_destination_cards
            = p.priv_state.selected_destination_cards
        ∧ 1 ≤ cards.length ∧ cards.length ≤ 3
        ∧ d2.destination_card_deck.length + cards.length
            = d.destination_card_deck.length
        ∧ b = false := by
  intro p turn d b p2 d2 h
  unfold Player.draw_destination_cards at h
  split at h
  · simp at h
  · rcases hdr : d.draw_from_destination_card_deck with ⟨r, d2x⟩
    rw [hdr] at h
    rcases r with e | cards
    · simp only [] at h
      simp at h
    · simp only [] at h
      simp only [Prod.mk.injEq, Except.ok.injEq] at h
      obtain ⟨hb, hp2, hd2⟩ := h
      have hlen : 1 ≤ cards.length ∧ cards.length ≤ 3
          ∧ d2x.destination_card_deck.length + cards.length
            = d.destination_card_deck.length := by
        unfold CardDealer.draw_from_destination_card_deck at hdr
        split at hdr
        · simp at hdr
        · rename_i hne
          simp only [Prod.mk.injEq, Except.ok.injEq] at hdr
          obtain ⟨hc, hd⟩ := hdr
          have hl := drawDestinationLoop_length 3 d.destination_card_deck
          have hne0 : d.destination_card_deck.length ≠ 0 :=
            fun h0 => hne (List.eq_nil_of_length_eq_zero h0)
          rw [← hc, ← hd]
          dsimp only
          refine ⟨?_, ?_, ?_⟩
          · rcases Nat.le_total 3 d.destination_card_deck.length with hle | hle
            · rw [hl.2, Nat.min_eq_left hle]
              omega
            · rw [hl.2, Nat.min_eq_right hle]
              omega
          · rcases Nat.le_total 3 d.destination_card_deck.length with hle | hle
            · rw [hl.2, Nat.min_eq_left hle]
            · rw [hl.2, Nat.min_eq_right hle]
              omega
          · omega
      refine ⟨cards, ?_, ?_, ?_, hlen.1, hlen.2.1, ?_, hb.symm⟩
      · rw [← hd2]
      · rw [← hp2]
        rfl
      · rw [← hp2]
        rfl
      · rw [← hd2]
        exact hlen.2.2

/-- The cards kept by `select_destination_cards`, in pending order. -/
def selected_cards_of (pending : List DestinationCard) (decisions : List Bool) :
    List DestinationCard :=
  (pending.zip decisions).filterMap (fun cd => if cd.2 then some cd.1 else none)

/-- The cards rejected by `select_destination_cards`, in pending order. -/
def rejected_cards_of (pending : List DestinationCard) (decisions : List Bool) :
    List DestinationCard :=
  (pending.zip decisions).filterMap (fun cd => if cd.2 then none else some cd.1)

theorem eraseIdx_concat_length {α : Type} :
    ∀ (ys : List α) (y : α), (ys ++ [y]).eraseIdx ys.length = ys
  | [], y => rfl
  | x :: ys, y => by
    show (x :: (ys ++ [y])).eraseIdx (ys.length + 1) = x :: ys
    simp only [List.eraseIdx]
    rw [eraseIdx_concat_length ys y]

theorem select_destination_loop_spec :
    ∀ (n : Nat) (ds extra : List Bool) (pending sel disc : List DestinationCard),
      ds.length = n → pending.length = n →
      select_destination_loop (ds ++ extra) n pending sel disc
        = ([], sel ++ (selected_cards_of pending ds).reverse,
           disc ++ (rejected_cards_of pending ds).reverse) := by
  intro n
  induction n with
  | zero =>
    intro ds extra pending sel disc hd hp
    have hp2 : pending = [] := List.eq_nil_of_length_eq_zero hp
    have hd2 : ds = [] := List.eq_nil_of_length_eq_zero hd
    subst hp2
    subst hd2
    simp [select_destination_loop, selected_cards_of, rejected_cards_of]
  | succ n ih =>
    intro ds extra pending sel disc hd hp
    rcases List.eq_nil_or_concat pending with rfl | ⟨ys, y, rfl⟩
    · simp at hp
    rcases List.eq_nil_or_concat ds with rfl | ⟨ds2, b, rfl⟩
    · simp at hd
    simp only [List.concat_eq_append] at hd hp ⊢
    simp only [List.length_append, List.length_singleton] at hd hp
    have hys : ys.length = n := by omega
    have hds : ds2.length = n := by omega
    unfold select_destination_loop
    simp only []
    have hg1 : (ys ++ [y]).getD n ⟨(City.Atlanta, City.Atlanta), 0⟩ = y := by
      rw [← hys, List.getD_append_right ys [y] _ ys.length (le_refl _), Nat.sub_self]
      rfl
    have hg2 : ((ds2 ++ [b]) ++ extra).getD n false = b := by
      rw [List.append_assoc, ← hds,
        List.getD_append_right ds2 ([b] ++ extra) _ ds2.length (le_refl _), Nat.sub_self]
      rfl
    have he : (ys ++ [y]).eraseIdx n = ys := by
      rw [← hys, eraseIdx_concat_length ys y]
    rw [hg1, hg2, he]
    have hzip : (ys ++ [y]).zip (ds2 ++ [b]) = ys.zip ds2 ++ [(y, b)] :=
      List.zip_append (by omega)
    have hsel : selected_cards_of (ys ++ [y]) (ds2 ++ [b])
        = selected_cards_of ys ds2 ++ (if b then [y] else []) := by
      unfold selected_cards_of
      rw [hzip, List.filterMap_append]
      congr 1
      by_cases hb : b <;> simp [hb]
    have hrej : rejected_cards_of (ys ++ [y]) (ds2 ++ [b])
        = rejected_cards_of ys ds2 ++ (if b then [] else [y]) := by
      unfold rejected_cards_of
      rw [hzip, List.filterMap_append]
      congr 1
      by_cases hb : b <;> simp [hb]
    rw [hsel, hrej]
    by_cases hb : b
    · simp only [hb, if_true]
      rw [List.append_assoc, ih ds2 ([true] ++ extra) ys (sel ++ [y]) disc hds hys]
      simp
    · simp only [hb, if_false]
      rw [List.append_assoc, ih ds2 ([false] ++ extra) ys sel (disc ++ [y]) hds hys]
      simp

theorem select_finish_props (p : Player) (decs : List Bool) (d : CardDealer) (mn : Nat)
    (hlen : decs.length = p.priv_state.pending_destination_cards.length)
    (hmin : ¬((decs.filter (fun x => x)).length < mn)) :
    ∃ p2 d2, p.select_destination_cards_finish decs d mn = (Except.ok true, p2, d2)
      ∧ p2.priv_state.pending_destination_cards = []
      ∧ p2.priv_state.selected_destination_cards
          = p.priv_state.selected_destination_cards
            ++ (selected_cards_of p.priv_state.pending_destination_cards decs).reverse
      ∧ p2.public.turn_actions.actions
          = p.public.turn_actions.actions ++ [PlayerAction.SelectedDestinationCards]
      ∧ d2 = d.discard_destination_cards
          ((rejected_cards_of p.priv_state.pending_destination_cards decs).reverse) := by
  unfold Player.select_destination_cards_finish
  rw [if_neg hmin]
  have hl := select_destination_loop_spec decs.length decs []
    p.priv_state.pending_destination_cards [] [] rfl hlen.symm
  rw [List.append_nil] at hl
  dsimp only
  simp only [Player.append_turn_action]
  rw [hl]
  exact ⟨_, _, rfl, rfl, by simp, rfl, by simp⟩

/-- C9: `Player::select_destination_cards` rejects a decisions array whose
length differs from the pending list; requires at least two selections on
the initial (turn-`None`) draw and at least one on a normal turn; and on
success moves exactly the chosen pending cards to the selected list (the
backwards removal appends them in reverse pending order), hands the
rejected ones back to the dealer's discard path, empties the pending list,
logs the action, and reports the turn as over. -/
theorem C9_select_destination_cards_validation :
    (∀ (p : Player) (decs : List Bool) (turn : Option Nat) (d : CardDealer),
      decs.length ≠ p.priv_state.pending_destination_cards.length →
      p.select_destination_cards decs turn d
        = Res.ok (Except.error (PlayerErr.wrongDecisionsLength decs.length
            p.priv_state.pending_destination_cards.length), p, d))
    ∧ (∀ (p : Player) (decs : List Bool) (d : CardDealer),
      p.public.turn_actions.turn = none →
      decs.length = p.priv_state.pending_destination_cards.length →
      (decs.filter (fun x => x)).length < 2 →
      p.select_destination_cards decs none d
        = Res.ok (Except.error
            (PlayerErr.tooFewSelected (decs.filter (fun x => x)).length 2), p, d))
    ∧ (∀ (p : Player) (decs : List Bool) (t : Nat) (d : CardDealer)
        (rest : List PlayerAction),
      p.public.turn_actions.turn = some t →
      p.public.turn_actions.actions = PlayerAction.DrewDestinationCards :: rest →
      decs.length = p.priv_state.pending_destination_cards.length →
      (decs.filter (fun x => x)).length < 1 →
      p.select_destination_cards decs (some t) d
        = Res.ok (Except.error
            (PlayerErr.tooFewSelected (decs.filter (fun x => x)).length 1), p, d))
    ∧ (∀ (p : Player) (decs : List Bool) (d : CardDealer),
      p.public.turn_actions.turn = none →
      decs.length = p.priv_state.pending_destination_cards.length →
      2 ≤ (decs.filter (fun x => x)).length →
      ∃ p2 d2, p.select_destination_cards decs none d = Res.ok (Except.ok true, p2, d2)
        ∧ p2.priv_state.pending_destination_cards = []
        ∧ p2.priv_state.selected_destination_cards
            = p.priv_state.selected_destination_cards
              ++ (selected_cards_of p.priv_state.pending_destination_cards decs).reverse
        ∧ p2.public.turn_actions.actions
            = p.public.turn_actions.actions ++ [PlayerAction.SelectedDestinationCards]
        ∧ d2 = d.discard_destination_cards
            ((rejected_cards_of p.priv_state.pending_destination_cards decs).reverse))
    ∧ (∀ (p : Player) (decs : List Bool) (t : Nat) (d : CardDealer)
        (rest : List PlayerAction),
      p.public.turn_actions.turn = some t →
      p.public.turn_actions.actions = PlayerAction.DrewDestinationCards :: rest →
      decs.length = p.priv_state.pending_destination_cards.length →
      1 ≤ (decs.filter (fun x => x)).length →
      ∃ p2 d2, p.select_destination_cards decs (some t) d
          = Res.ok (Except.ok true, p2, d2)
        ∧ p2.priv_state.pending_destination_cards = []
        ∧ p2.priv_state.selected_destination_cards
            = p.priv_state.selected_destination_cards
              ++ (selected_cards_of p.priv_state.pending_destination_cards decs).reverse
        ∧ p2.public.turn_actions.actions
            = p.public.turn_actions.actions ++ [PlayerAction.SelectedDestinationCards]
        ∧ d2 = d.discard_destination_cards
            ((rejected_cards_of p.priv_state.pending_destination_cards decs).reverse)) := by
  refine ⟨?_, ?_, ?_, ?_, ?_⟩
  · intro p decs turn d hne
    unfold Player.select_destination_cards
    rw [if_pos hne]
  · intro p decs d hturn hlen hfew
    unfold Player.select_destination_cards
    rw [if_neg (by omega), hturn]
    simp only []
    unfold Player.select_destination_cards_finish
    rw [if_pos hfew]
  · intro p decs t d rest hturn hact hlen hfew
    unfold Player.select_destination_cards
    rw [if_neg (by omega), hturn]
    simp only []
    rw [if_neg (by simp), hact]
    simp only []
    rw [if_neg (by simp)]
    unfold Player.select_destination_cards_finish
    rw [if_pos hfew]
  · intro p decs d hturn hlen hmin
    obtain ⟨p2, d2, hfin, h1, h2, h3, h4⟩ :=
      select_finish_props p decs d 2 hlen (by omega)
    refine ⟨p2, d2, ?_, h1, h2, h3, h4⟩
    unfold Player.select_destination_cards
    rw [if_neg (by omega), hturn]
    simp only []
    rw [hfin]
  · intro p decs t d rest hturn hact hlen hmin
    obtain ⟨p2, d2, hfin, h1, h2, h3, h4⟩ :=
      select_finish_props p decs d 1 hlen (by omega)
    refine ⟨p2, d2, ?_, h1, h2, h3, h4⟩
    unfold Player.select_destination_cards
    rw [if_neg (by omega), hturn]
    simp only []
    rw [if_neg (by simp), hact]
    simp only []
    rw [if_neg (by simp), hfin]

/-- C1 as stated is false: `CardDealer::discard_train_cards` only appends to
the discard pile and calls `maybe_reshuffle_and_swap_discarded_deck`, which
touches the closed deck only when that deck is empty and never re-checks the
open deck's wild count. The 104-operation trace behind `c1_final` drains the
deck so that three wild cards sit face up while five real cards remain across
the three train decks: a reachable state violating the cap. -/
theorem C1_wild_cap_counterexample :
    DealerReach c1_final ∧ ¬c1_final.dealer.wild_cap :=
  ⟨applyTrace_reach c1_shuffle 1 c1_shuffle_perm c1_trace ⟨c1_dealer0, []⟩ c1_final
      c1_trace_eval
      (DealerReach.init c1_shuffle id 1 c1_dealer0 c1_shuffle_perm c1_new_eval),
   by decide⟩

/-- C1 (amended): the wild cap — fewer than three wild cards face up, or
fewer than three real cards across the open, closed and discard decks —
holds after `CardDealer::new` and after every successful
`draw_from_open_train_card_deck`, and is preserved by
`draw_from_close_train_card_deck`; `discard_train_cards` does not
re-establish it. -/
theorem C1_wild_cap_amended :
    (∀ (σ : List TrainColor → List TrainColor)
        (σd : List DestinationCard → List DestinationCard) (fuel : Nat) (d : CardDealer),
      CardDealer.new σ σd fuel = some d → d.wild_cap)
    ∧ (∀ (σ : List TrainColor → List TrainColor) (fuel i : Nat) (s : Bool)
        (d d' : CardDealer) (c : TrainColor) (rs : Bool),
      d.draw_from_open_train_card_deck σ fuel i s = some (Except.ok (c, rs), d') →
        d'.wild_cap)
    ∧ (∀ (σ : List TrainColor → List TrainColor), (∀ l, (σ l).Perm l) →
        ∀ d : CardDealer, d.wild_cap →
          ((d.draw_from_close_train_card_deck σ).2).wild_cap) :=
  ⟨fun σ σd fuel d h => wild_cap_new σ σd fuel d h,
   fun σ fuel i s d d' c rs h => wild_cap_draw_open σ fuel i s d d' c rs h,
   fun σ hσ d h => wild_cap_draw_close σ hσ d h⟩

theorem C1_wild_cap_amended_witness : c1_dealer0.wild_cap :=
  C1_wild_cap_amended.1 c1_shuffle id 1 c1_dealer0 c1_new_eval

/-- Modelled from the spec: the turn-ending check of the manager. The `src/`
snapshot has no turn-ending handler that performs the `cars < 3` check (the
route-claim and train-draw manager entry points referenced by the router are
absent, and `Manager::maybe_player_and_game_done` only implements the
`LastTurn` bookkeeping), so check (a) is modelled from the spec's words:
after each turn-ending action, (a) if the phase is still `Playing` and the
acting player's `cars < 3`, transition to `LastTurn` and seed
`num_players_done_playing = 0`; otherwise (b) run the source's
`maybe_player_and_game_done`. -/
def Manager.end_of_turn_check (m : Manager) (player_index : Nat) : Res Manager :=
  if m.phase = GamePhase.Playing ∧
      (match m.players.get? player_index with
        | some player => decide (player.public.cars < 3)
        | none => false) = true then
    Res.ok { m with phase := GamePhase.LastTurn, num_players_done_playing := 0 }
  else
    m.maybe_player_and_game_done player_index

/-- C2 (spec-modelled, see `Manager.end_of_turn_check`): immediately after a
turn-ending action by a player left with fewer than 3 cars while the phase
is `Playing`, the check transitions the phase to `LastTurn` and resets
`num_players_done_playing` to 0; and no outcome of the check leaves the game
in phase `Playing` while the acting player has fewer than 3 cars. -/
theorem C2_last_turn_transition :
    (∀ (m : Manager) (i : Nat) (player : Player),
      m.players.get? i = some player → player.public.cars < 3 →
      m.phase = GamePhase.Playing →
      m.end_of_turn_check i
        = Res.ok { m with phase := GamePhase.LastTurn, num_players_done_playing := 0 })
    ∧ (∀ (m : Manager) (i : Nat) (m2 : Manager), m.end_of_turn_check i = Res.ok m2 →
        ∀ player, m2.players.get? i = some player → player.public.cars < 3 →
        m2.phase ≠ GamePhase.Playing) := by
  constructor
  · intro m i player hget hcars hphase
    unfold Manager.end_of_turn_check
    rw [if_pos ⟨hphase, by rw [hget]; exact decide_eq_true hcars⟩]
  · intro m i m2 h player hget hcars
    unfold Manager.end_of_turn_check at h
    split at h
    · simp only [Res.ok.injEq] at h
      rw [← h]
      simp
    · rename_i hcond
      unfold Manager.maybe_player_and_game_done at h
      dsimp only at h
      split at h
      · simp only [Res.ok.injEq] at h
        rw [← h] at hget ⊢
        intro hp
        exact hcond ⟨hp, by rw [hget]; exact decide_eq_true hcars⟩
      · rename_i hlt2
        have hphase2 : m.phase = GamePhase.LastTurn := not_not.mp hlt2
        split at h
        · split at h
          · simp only [Res.ok.injEq] at h
            rw [← h]
            dsimp only
            rw [hphase2]
            simp
          · split at h
            · simp at h
            · simp only [Res.ok.injEq] at h
              rw [← h]
              simp
        · simp at h

def c2_player : Player :=
  { Player.new 0 PlayerColor.Black "A" with
    public := { (Player.new 0 PlayerColor.Black "A").public with cars := 2 } }

def c2_manager : Manager :=
  { Manager.new with
    phase := GamePhase.Playing
    turn := some 0
    players := [c2_player] }

theorem C2_last_turn_transition_witness :
    Manager.end_of_turn_check c2_manager 0
      = Res.ok { c2_manager with
          phase := GamePhase.LastTurn, num_players_done_playing := 0 } :=
  C2_last_turn_transition.1 c2_manager 0 c2_player rfl (by decide) rfl

theorem C5_parallel_route_exclusivity_witness :
    GameMap.new 4 = some { parallel_routes_allowed := true,
                           claimers := fun _ _ => none }
    ∧ (((none : Option Nat) = some 0 → ∀ cards,
        GameMap.claim_route_for_player
            { parallel_routes_allowed := true, claimers := fun _ _ => none }
            (City.Raleigh, City.Washington) 0 cards 0
          = (Except.error
              (ClaimError.cannotClaimMoreThanOne City.Raleigh City.Washington),
             { parallel_routes_allowed := true, claimers := fun _ _ => none }))
      ∧ (∀ q, q ≠ 0 → (none : Option Nat) = some q → (4 : Nat) ≤ 3 → ∀ cards,
        GameMap.claim_route_for_player
            { parallel_routes_allowed := true, claimers := fun _ _ => none }
            (City.Raleigh, City.Washington) 0 cards 0
          = (Except.error
              (ClaimError.anotherRouteAlreadyClaimed City.Raleigh City.Washington),
             { parallel_routes_allowed := true, claimers := fun _ _ => none }))
      ∧ (∀ q, q ≠ 0 → (none : Option Nat) = some q → (3 : Nat) < 4 →
        ∀ (cards : List TrainColor) (color : TrainColor) (len : Nat) (cc : TrainColor),
          [(TrainColor.Wild, 2), (TrainColor.Wild, 2)][0]? = some (color, len) →
          cards.length = len →
          (none : Option Nat) = none →
          common_color_loop TrainColor.Wild cards = Except.ok cc →
          route_color_check color cc = false →
          (GameMap.claim_route_for_player
              { parallel_routes_allowed := true, claimers := fun _ _ => none }
              (City.Raleigh, City.Washington) 0 cards 0).1
            = Except.ok ⟨(City.Raleigh, City.Washington), 0, len⟩)) :=
  C5_parallel_route_exclusivity 4 (by decide) (by decide) (fun _ _ => none)
    (City.Raleigh, City.Washington) (City.Raleigh, City.Washington)
    [(TrainColor.Wild, 2), (TrainColor.Wild, 2)] (by decide) rfl 0 (by decide) 0

def c6_m0 : GameMap := { parallel_routes_allowed := true, claimers := fun _ _ => none }

def c6_m2 : GameMap :=
  (GameMap.claim_route_for_player c6_m0 (City.Raleigh, City.Washington) 0
    [TrainColor.White, TrainColor.White] 0).2

theorem C6_claim_observable_in_mirror_direction_witness :
    c6_m2.claimer_via (City.Washington, City.Raleigh) 0 = some 0
    ∧ (∀ pid2 cards2, ∃ e,
      c6_m2.claim_route_for_player (City.Washington, City.Raleigh) 0 cards2 pid2
        = (Except.error e, c6_m2))
    ∧ (∀ pid2 cards2 key segs color len,
      find_city_route_entry (City.Raleigh, City.Washington) = some (key, segs) →
      segs[0]? = some (color, len) →
      cards2.length = len →
      (∀ q, c6_m0.claimers key ((0 + 1) % segs.length) = some q →
        q ≠ pid2 ∧ c6_m0.parallel_routes_allowed = true) →
      c6_m2.claim_route_for_player (City.Washington, City.Raleigh) 0 cards2 pid2
        = (Except.error (ClaimError.alreadyClaimed City.Washington City.Raleigh),
           c6_m2)) :=
  C6_claim_observable_in_mirror_direction c6_m0 City.Raleigh City.Washington 0
    [TrainColor.White, TrainColor.White] 0
    ⟨(City.Raleigh, City.Washington), 0, 2⟩ c6_m2 rfl

def c9_player : Player :=
  { Player.new 0 PlayerColor.Blue "B" with
    priv_state := { (Player.new 0 PlayerColor.Blue "B").priv_state with
      pending_destination_cards :=
        [⟨(City.Atlanta, City.Boston), 5⟩, ⟨(City.Chicago, City.Denver), 4⟩,
         ⟨(City.Dallas, City.Duluth), 6⟩] } }

def c9_dealer : CardDealer :=
  { open_train_card_deck := []
    close_train_card_deck := []
    discarded_train_card_deck := []
    destination_card_deck := [] }

theorem C9_select_destination_cards_validation_witness :
    ∃ p2 d2, c9_player.select_destination_cards [true, true, false] none c9_dealer
        = Res.ok (Except.ok true, p2, d2)
      ∧ p2.priv_state.pending_destination_cards = []
      ∧ p2.priv_state.selected_destination_cards
          = c9_player.priv_state.selected_destination_cards
            ++ (selected_cards_of c9_player.priv_state.pending_destination_cards
                [true, true, false]).reverse
      ∧ p2.public.turn_actions.actions
          = c9_player.public.turn_actions.actions
            ++ [PlayerAction.SelectedDestinationCards]
      ∧ d2 = c9_dealer.discard_destination_cards
          ((rejected_cards_of c9_player.priv_state.pending_destination_cards
            [true, true, false]).reverse) :=
  C9_select_destination_cards_validation.2.2.2.1 c9_player [true, true, false]
    c9_dealer rfl rfl (by decide)

def c10_player : Player :=
  { Player.new 0 PlayerColor.Black "A" with
    priv_state := { (Player.new 0 PlayerColor.Black "A").priv_state with
      pending_destination_cards := [⟨(City.Atlanta, City.Boston), 5⟩] } }

def c10_dealer : CardDealer :=
  { open_train_card_deck := []
    close_train_card_deck := []
    discarded_train_card_deck := []
    destination_card_deck :=
      [⟨(City.Chicago, City.Denver), 4⟩, ⟨(City.Dallas, City.Duluth), 6⟩] }

def c10_p2 : Player := (Player.draw_destination_cards c10_player 0 c10_dealer).2.1

def c10_d2 : CardDealer := (Player.draw_destination_cards c10_player 0 c10_dealer).2.2

theorem C10_draw_destination_drops_pending_witness :
    ∃ cards : List DestinationCard,
      c10_dealer.draw_from_destination_card_deck = (Except.ok cards, c10_d2)
      ∧ c10_p2.priv_state.pending_destination_cards = cards
      ∧ c10_p2.priv_state.selected_destination_cards
          = c10_player.priv_state.selected_destination_cards
      ∧ 1 ≤ cards.length ∧ cards.length ≤ 3
      ∧ c10_d2.destination_card_deck.length + cards.length
          = c10_dealer.destination_card_deck.length
      ∧ false = false :=
  C10_draw_destination_drops_pending c10_player 0 c10_dealer false c10_p2 c10_d2 rfl
